import Mathlib

/-!
swarmsim: force-field steering simulation (`sim.go`)

A shallow embedding of `sim.go`.  Go's `float64` is read as an ordered field `F`
(the theorems about forces, angles and `Tick` take `F = ℝ`), the functions of Go's
`math` package are the fields of the class `GoMath`, pointers to actors are indices
into the actor collection of the simulation, and the `World` callback sink is the
list of notifications it received.

Two things the Go code can do have no value in an ordered field, and the definitions
report them as a `Fault` instead of inventing a value:

* calling `GetPos` through a nil `attractor` interface (a run-time panic in Go);
* dividing by a distance that is zero (IEEE-754 gives `±Inf`, and `0 * Inf = NaN`
  for the force components, which then spreads to heading and position).

In Go a tick with such a division still leaves a state.  For what `Tick` leaves
alone, `Tick` and the functions it calls are therefore written a second time, over a
type with operations of which no law is asked (`Arith`): there `Tick` is total, and
in the arithmetic of an ordered field it leaves the state that `Sim.Tick` returns
(`ofField_Tick`).  `Arith.binary64` is the arithmetic that rounds to 53 significant
bits, for the input on which rounding keeps the loop of `angleBetweenAngles` from
ending.
-/

namespace Swarmsim

/-! ## The `math` package -/

/-- The functions and constants of Go's `math` package that `sim.go` uses. -/
class GoMath (F : Type) where
  /-- The function `math.Hypot(p, q)`: the square root of `p*p + q*q`. -/
  Hypot : F → F → F
  /-- The function `math.Sin`, argument in radians. -/
  Sin : F → F
  /-- The function `math.Cos`, argument in radians. -/
  Cos : F → F
  /-- The function `math.Atan2(y, x)`: the angle of the point `(x, y)`, in radians. -/
  Atan2 : F → F → F
  /-- The constant `math.Pi`. -/
  Pi : F

/-- The `math` package over the real numbers.  `Atan2 y x` is the argument of the
complex number `x + y i`, which lies in `(-π, π]` and is `0` at the origin, as
`math.Atan2(0, 0)` is. -/
noncomputable instance realMath : GoMath ℝ where
  Hypot p q := Real.sqrt (p * p + q * q)
  Sin := Real.sin
  Cos := Real.cos
  Atan2 y x := Complex.arg ⟨x, y⟩
  Pi := Real.pi

variable {F : Type} [LinearOrderedField F]

/-! ## Data model -/

/-- The type `Static` of sim.go: an immovable obstacle. -/
structure Static (F : Type) where
  PosX : F
  PosY : F

/-- The interface `Emitter` of sim.go, by its two implementations.  A `*Static` is
never written after its creation, so the reference to it is its value; a `*Actor`
is the index of the actor in the collection `Sim.actors`. -/
inductive Emitter (F : Type) where
  | static (st : Static F)
  | actor (idx : Nat)

/-- The type `Actor` of sim.go.  `attractor` is `none` for the nil interface. -/
structure Actor (F : Type) where
  PosX : F
  PosY : F
  Heading : F
  TargetAngle : F
  attractor : Option (Emitter F)
  repulsors : List (Emitter F)

/-- One call received by the `World` interface.  `ActorSpawned` records the index of
the actor whose pointer is passed and the fields that actor has at the time of the
call. -/
inductive Event (F : Type) where
  | StaticSpawned (st : Static F)
  | ActorSpawned (idx : Nat) (a : Actor F)

/-- The type `Sim` of sim.go.  `world` is the sequence of calls the `World` has
received, oldest first. -/
structure Sim (F : Type) where
  world : List (Event F)
  actors : List (Actor F)

/-- What has no value in the ordered field `F`. -/
inductive Fault where
  /-- The call `a.attractor.GetPos()` with a nil `attractor`: Go panics. -/
  | nilAttractor
  /-- An actor reference that is not an index of the collection. -/
  | badPointer
  /-- A division by a zero distance: Go yields `Inf` and then `NaN`. -/
  | zeroDistance
deriving DecidableEq

/-- The method `GetPos` of `*Static`. -/
def Static.GetPos (a : Static F) : F × F :=
  (a.PosX, a.PosY)

/-- The method `GetPos` of `*Actor`. -/
def Actor.GetPos (a : Actor F) : F × F :=
  (a.PosX, a.PosY)

/-- The interface call `e.GetPos()`, the actors being those of `s`. -/
def Emitter.GetPos (s : Sim F) : Emitter F → Except Fault (F × F)
  | .static st => .ok st.GetPos
  | .actor idx =>
    match s.actors[idx]? with
    | some b => .ok b.GetPos
    | none => .error .badPointer

/-! ## Force fields -/

/-- The method `ProbeRepulsingField` of sim.go: the force on actor `a` from a
repulsing source at `(x, y)`. -/
def Actor.ProbeRepulsingField [GoMath F] (a : Actor F) (x y : F) : Except Fault (F × F) :=
  let dx := a.PosX - x
  let dy := a.PosY - y
  let minDistanceNoticeable : F := 150
  let fieldScalingFactor : F := 0.2
  let distance := GoMath.Hypot dx dy
  if distance > minDistanceNoticeable then
    .ok (0, 0)
  else if distance = 0 then
    .error .zeroDistance
  else
    let scalarNorm := (minDistanceNoticeable / distance - 1) * fieldScalingFactor
    .ok (dx * scalarNorm, dy * scalarNorm)

/-- The method `ProbeAttractingField` of sim.go: the force on actor `a` from an
attracting source at `(x, y)`. -/
def Actor.ProbeAttractingField [GoMath F] (a : Actor F) (x y : F) : Except Fault (F × F) :=
  let dx := x - a.PosX
  let dy := y - a.PosY
  let distance := GoMath.Hypot dx dy
  let attractingPower : F := 10
  if distance = 0 then
    .error .zeroDistance
  else
    let scalarNorm := (1 / distance) * attractingPower
    .ok (dx * scalarNorm, dy * scalarNorm)

/-! ## Angles -/

/-- The loop `for res > 360 { res -= 360 }` of `angleBetweenAngles`. -/
def angleBetweenAngles.loop [FloorRing F] (res : F) : F :=
  if h : res > 360 then angleBetweenAngles.loop (res - 360) else res
termination_by ⌈res / 360⌉₊
decreasing_by
  have h1 : (res - 360) / 360 = res / 360 - 1 := by field_simp
  have h2 : (0 : F) ≤ res / 360 - 1 := by
    rw [sub_nonneg, le_div_iff₀ (by norm_num)]
    simpa using (le_of_lt h)
  have h3 : ⌈res / 360⌉₊ = ⌈res / 360 - 1⌉₊ + 1 := by
    rw [← Nat.ceil_add_one h2, sub_add_cancel]
  rw [h1, h3]
  exact Nat.lt_succ_self _

/-- The function `angleBetweenAngles` of sim.go. -/
def angleBetweenAngles [FloorRing F] (a1 a2 : F) : F :=
  let res := a2 - a1 + 180
  let res := angleBetweenAngles.loop res
  res - 180

/-- The loop `for direction < 0 { direction += 360 }` of `PlanAhead`. -/
def Actor.PlanAhead.loop [FloorRing F] (direction : F) : F :=
  if h : direction < 0 then Actor.PlanAhead.loop (direction + 360) else direction
termination_by ⌈-direction / 360⌉₊
decreasing_by
  have h1 : -(direction + 360) / 360 = -direction / 360 - 1 := by field_simp; ring
  by_cases h2 : (0 : F) ≤ -direction / 360 - 1
  · have h3 : ⌈-direction / 360⌉₊ = ⌈-direction / 360 - 1⌉₊ + 1 := by
      rw [← Nat.ceil_add_one h2, sub_add_cancel]
    rw [h1, h3]
    exact Nat.lt_succ_self _
  · have h3 : ⌈-direction / 360 - 1⌉₊ = 0 :=
      Nat.ceil_eq_zero.mpr (le_of_lt (not_le.mp h2))
    have h4 : (0 : F) < -direction / 360 := div_pos (neg_pos.mpr h) (by norm_num)
    rw [h1, h3]
    exact Nat.ceil_pos.mpr h4

/-! ## Steering -/

/-- The body of the loop `for _, r := range a.repulsors` of `PlanAhead`: the force
of repulsor `r` is added to `(fx, fy)`. -/
def Actor.PlanAhead.addRepulsion [GoMath F] (s : Sim F) (a : Actor F) (f : F × F)
    (r : Emitter F) : Except Fault (F × F) :=
  match r.GetPos s with
  | .error e => .error e
  | .ok (rx, ry) =>
    match a.ProbeRepulsingField rx ry with
    | .error e => .error e
    | .ok (rfx, rfy) => .ok (f.1 + rfx, f.2 + rfy)

/-- The net force `(fx, fy)` that `PlanAhead` has computed when it reaches the call
of `math.Atan2`. -/
def Actor.PlanAhead.force [GoMath F] (s : Sim F) (a : Actor F) : Except Fault (F × F) :=
  match a.attractor with
  | none => .error .nilAttractor
  | some e =>
    match e.GetPos s with
    | .error err => .error err
    | .ok (ax, ay) =>
      match a.ProbeAttractingField ax ay with
      | .error err => .error err
      | .ok f => a.repulsors.foldlM (Actor.PlanAhead.addRepulsion s a) f

/-- The method `PlanAhead` of sim.go, on the actor `a` of the simulation `s`. -/
def Actor.PlanAhead [GoMath F] [FloorRing F] (s : Sim F) (a : Actor F) :
    Except Fault (Actor F) :=
  match Actor.PlanAhead.force s a with
  | .error err => .error err
  | .ok (fx, fy) =>
    let direction := GoMath.Atan2 fy fx / GoMath.Pi * 180 + 90
    let direction := Actor.PlanAhead.loop direction
    .ok { a with TargetAngle := direction }

/-- The method `AddRepulsor` of sim.go. -/
def Actor.AddRepulsor (a : Actor F) (r : Emitter F) : Actor F :=
  { a with repulsors := a.repulsors ++ [r] }

/-- The method `SetAttractor` of sim.go. -/
def Actor.SetAttractor (a : Actor F) (e : Emitter F) : Actor F :=
  { a with attractor := some e }

/-! ## Tick -/

/-- The statements of the loop body of `Tick` that follow `a.PlanAhead()`: the
clamped turn and the move, `moved` being `speed * timePassed`. -/
def Sim.Tick.advance [GoMath F] [FloorRing F] (timePassed moved : F) (a : Actor F) :
    Actor F :=
  let speedScale : F := 2.0
  let aba := angleBetweenAngles a.Heading a.TargetAngle
  let maxDegreesPerSecond : F := 120 * speedScale
  let maxDegrees := maxDegreesPerSecond * timePassed
  let aba := if aba > maxDegrees then maxDegrees else aba
  let aba := if aba < -maxDegrees then -maxDegrees else aba
  let a := { a with Heading := a.Heading + aba }
  let dx := GoMath.Sin (a.Heading / 180 * GoMath.Pi)
  let dy := -GoMath.Cos (a.Heading / 180 * GoMath.Pi)
  let a := { a with PosX := a.PosX + dx * moved }
  { a with PosY := a.PosY + dy * moved }

/-- One iteration of the loop `for _, a := range s.actors` of `Tick`, for the actor
at index `i`; the actor is updated in place. -/
def Sim.Tick.body [GoMath F] [FloorRing F] (timePassed moved : F) (s : Sim F) (i : Nat) :
    Except Fault (Sim F) :=
  match s.actors[i]? with
  | none => .ok s
  | some a =>
    match a.PlanAhead s with
    | .error err => .error err
    | .ok a => .ok { s with actors := s.actors.set i (Sim.Tick.advance timePassed moved a) }

/-- The method `Tick` of sim.go. -/
def Sim.Tick [GoMath F] [FloorRing F] (s : Sim F) (timePassed : F) : Except Fault (Sim F) :=
  let speedScale : F := 2.0
  let speed := 90.0 * speedScale
  let moved := speed * timePassed
  (List.range s.actors.length).foldlM (Sim.Tick.body timePassed moved) s

/-! ## SetWorld -/

/-- The obstacle that the loop `for i := range statics` of `SetWorld` creates at ring
index `i`, with `cx, cy := 500.0, 220.0` and `len(statics) = 100`. -/
def Sim.SetWorld.newStatic [GoMath F] (cx cy : F) (i : Nat) : Static F :=
  let angle := (GoMath.Pi * 2.0 / ((100 : Nat) : F)) * (i : F)
  let sx := cx + GoMath.Hypot cx cy * GoMath.Sin angle
  let sy := cy + GoMath.Hypot cx cy * GoMath.Cos angle
  { PosX := sx, PosY := sy }

/-- The actor that the loop `for i := range s.actors` of `SetWorld` creates at index
`i`.  The value `rand k n` is what the `k`-th call of `rand.Intn` in `SetWorld`
returns when its argument is `n`. -/
def Sim.SetWorld.newActor [FloorRing F] (cx cy : F) (statics : List (Static F))
    (rand : Nat → Nat → Nat) (i : Nat) : Actor F :=
  let a : Actor F :=
    { PosX := 0, PosY := 0, Heading := 0, TargetAngle := 0, attractor := none, repulsors := [] }
  let a := { a with PosX := ((rand (3 * i) ⌊cx * 2 + 1⌋₊ : Nat) : F) }
  let a := { a with PosY := ((rand (3 * i + 1) ⌊cy * 2 + 1⌋₊ : Nat) : F) }
  let a := { a with Heading := ((rand (3 * i + 2) 360 : Nat) : F) }
  statics.foldl (fun a st => a.AddRepulsor (.static st)) a

/-- One iteration of the loop `for i, a := range s.actors` of `SetWorld` that links
the actors: the actor at index `i` gets its attractor and the other actors as
repulsors. -/
def Sim.SetWorld.link (attr : Static F) (actors : List (Actor F)) (i : Nat) :
    List (Actor F) :=
  match actors[i]? with
  | none => actors
  | some a =>
    let a :=
      if i = 0 then a.SetAttractor (.actor (actors.length - 1))
      else a.SetAttractor (.actor (i - 1))
    let a := a.SetAttractor (.static attr)
    let a := (List.range actors.length).foldl
      (fun a j => if i ≠ j then a.AddRepulsor (.actor j) else a) a
    actors.set i a

/-- The method `SetWorld` of sim.go.  The argument `w` is what the world has received
before the call, and `rand k n` is what the `k`-th call of `rand.Intn` returns when
its argument is `n`.  The slices `statics` and `s.actors`, which the Go code allocates
with `make` and fills at index `i` in iteration `i`, are built by appending. -/
def Sim.SetWorld [GoMath F] [FloorRing F] (s : Sim F) (w : List (Event F))
    (rand : Nat → Nat → Nat) : Sim F :=
  let s := { s with world := w }
  let cx : F := 500.0
  let cy : F := 220.0
  let attr : Static F := { PosX := 500, PosY := 300 }
  let p := (List.range 100).foldl
    (fun (p : List (Static F) × List (Event F)) i =>
      let st := Sim.SetWorld.newStatic cx cy i
      (p.1 ++ [st], p.2 ++ [Event.StaticSpawned st]))
    ([], s.world)
  let statics := p.1
  let s := { s with world := p.2 }
  let actors := (List.range 6).foldl
    (fun actors i => actors ++ [Sim.SetWorld.newActor cx cy statics rand i]) []
  let s := { s with actors := actors }
  let actors := (List.range s.actors.length).foldl (Sim.SetWorld.link attr) s.actors
  let s := { s with actors := actors }
  let w := s.actors.enum.foldl (fun w p => w ++ [Event.ActorSpawned p.1 p.2]) s.world
  { s with world := w }

/-! ## Example states -/

/-- An actor at the origin with heading `h` and target angle `t`, attracted by an
obstacle ten units to the north, at `(0, -10)`, and repelled by nothing. -/
def northActor (h t : F) : Actor F :=
  { PosX := 0, PosY := 0, Heading := h, TargetAngle := t,
    attractor := some (.static { PosX := 0, PosY := -10 }), repulsors := [] }

/-- The simulation whose only actor is `northActor h t`. -/
def northSim (h t : F) : Sim F :=
  { world := [], actors := [northActor h t] }

/-- An actor at `(x, y)` with heading and target angle `0`, without attractor and
without repulsors. -/
def probeActor (x y : F) : Actor F :=
  { PosX := x, PosY := y, Heading := 0, TargetAngle := 0, attractor := none, repulsors := [] }

/-- An actor at the origin whose attractor is an obstacle at the origin too: the
distance between them is zero. -/
def stuckActor : Actor F :=
  { PosX := 0, PosY := 0, Heading := 0, TargetAngle := 0,
    attractor := some (.static { PosX := 0, PosY := 0 }), repulsors := [] }

/-- The simulation whose only actor is `stuckActor`. -/
def stuckSim : Sim F :=
  { world := [], actors := [stuckActor] }

/-- An actor at the origin attracted by an obstacle at `(0, -10)` and repelled by
two obstacles, one at `(200, 0)`, out of range, and one at `(0, 75)`, in range. -/
def guardedActor : Actor F :=
  { PosX := 0, PosY := 0, Heading := 0, TargetAngle := 0,
    attractor := some (.static { PosX := 0, PosY := -10 }),
    repulsors := [.static { PosX := 200, PosY := 0 }, .static { PosX := 0, PosY := 75 }] }

/-- Random draws that place the first actor of `SetWorld` at `(500, 300)`: the first
call `rand.Intn(1001)` returns 500, the second call `rand.Intn(441)` returns 300, and
every later call returns 0. -/
def centreDraws : Nat → Nat → Nat :=
  fun k _ => if k = 0 then 500 else if k = 1 then 300 else 0

/-- The simulation that `main` allocates with `new(Sim)`: no world, no actors. -/
def newSim : Sim F :=
  { world := [], actors := [] }

/-! ## The reduction loop, with a count of its iterations -/

/-- The loop `for res > 360 { res -= 360 }` of `angleBetweenAngles`, returning the
final value of `res` together with the number of times the body has run. -/
def angleBetweenAngles.loopSteps [FloorRing F] (res : F) : F × Nat :=
  if h : res > 360 then
    let r := angleBetweenAngles.loopSteps (res - 360)
    (r.1, r.2 + 1)
  else (res, 0)
termination_by ⌈res / 360⌉₊
decreasing_by
  have h1 : (res - 360) / 360 = res / 360 - 1 := by field_simp
  have h2 : (0 : F) ≤ res / 360 - 1 := by
    rw [sub_nonneg, le_div_iff₀ (by norm_num)]
    simpa using (le_of_lt h)
  have h3 : ⌈res / 360⌉₊ = ⌈res / 360 - 1⌉₊ + 1 := by
    rw [← Nat.ceil_add_one h2, sub_add_cancel]
  rw [h1, h3]
  exact Nat.lt_succ_self _

/-! ## Reachable states -/

/-- The states of a simulation that has been set up: those produced by `SetWorld`,
and those produced from such a state by a call of `Tick` that returns a state. -/
inductive Reachable [GoMath F] [FloorRing F] : Sim F → Prop where
  | setWorld (s : Sim F) (w : List (Event F)) (rand : Nat → Nat → Nat) :
      Reachable (s.SetWorld w rand)
  | tick (s s' : Sim F) (dt : F) : Reachable s → s.Tick dt = .ok s' → Reachable s'

/-- Every actor of `s` has a static obstacle as its attractor, and every actor among
its repulsors is an actor of `s`. -/
def Sim.Linked (s : Sim F) : Prop :=
  ∀ a ∈ s.actors, (∃ st, a.attractor = some (.static st)) ∧
    ∀ j, Emitter.actor j ∈ a.repulsors → j < s.actors.length

/-! ## Other orders of update, to compare `Tick` with -/

/-- One iteration of a tick with double buffering, as the specification describes the
alternative to `Tick`: the actor at index `i` plans against the snapshot `s0` taken
before the tick, and is then turned and moved as in `Tick`. -/
def Sim.TickSnapshot.body [GoMath F] [FloorRing F] (timePassed moved : F) (s0 s : Sim F)
    (i : Nat) : Except Fault (Sim F) :=
  match s.actors[i]? with
  | none => .ok s
  | some a =>
    match a.PlanAhead s0 with
    | .error err => .error err
    | .ok a => .ok { s with actors := s.actors.set i (Sim.Tick.advance timePassed moved a) }

/-- The tick with double buffering: every actor is updated against the positions that
the actors had before the tick. -/
def Sim.TickSnapshot [GoMath F] [FloorRing F] (s : Sim F) (timePassed : F) :
    Except Fault (Sim F) :=
  let speedScale : F := 2.0
  let speed := 90.0 * speedScale
  let moved := speed * timePassed
  (List.range s.actors.length).foldlM (Sim.TickSnapshot.body timePassed moved s) s

/-- The tick of `Tick` with the actors taken in the reverse of the collection
order. -/
def Sim.TickReverse [GoMath F] [FloorRing F] (s : Sim F) (timePassed : F) :
    Except Fault (Sim F) :=
  let speedScale : F := 2.0
  let speed := 90.0 * speedScale
  let moved := speed * timePassed
  (List.range s.actors.length).reverse.foldlM (Sim.Tick.body timePassed moved) s

/-- The first actor of `pairSim`: at the origin, heading 0, attracted by an obstacle
at `(0, -10)` and repelled by the second actor. -/
def pairActor0 : Actor F :=
  { PosX := 0, PosY := 0, Heading := 0, TargetAngle := 0,
    attractor := some (.static { PosX := 0, PosY := -10 }), repulsors := [.actor 1] }

/-- The second actor of `pairSim`: at `(0, 100)`, heading 90, attracted by an obstacle
at `(10, 100)` and repelled by the first actor. -/
def pairActor1 : Actor F :=
  { PosX := 0, PosY := 100, Heading := 90, TargetAngle := 0,
    attractor := some (.static { PosX := 10, PosY := 100 }), repulsors := [.actor 0] }

/-- A simulation of two actors, 100 apart, that repel each other. -/
def pairSim : Sim F :=
  { world := [], actors := [pairActor0, pairActor1] }

/-! ## Draws that keep the actors apart -/

/-- An arithmetic for `float64`: the operations that `sim.go` applies to its numbers.
No law is asked of them: IEEE-754 binary64, with its rounding, its infinities and
its `NaN` of which no comparison holds, is one arithmetic, the real numbers are
another. -/
structure Arith (V : Type) where
  /-- The `float64` value of a numeric constant of the source. -/
  lit : ℚ → V
  /-- The sum `p + q`. -/
  add : V → V → V
  /-- The difference `p - q`. -/
  sub : V → V → V
  /-- The product `p * q`. -/
  mul : V → V → V
  /-- The quotient `p / q`. -/
  div : V → V → V
  /-- The negation `- p`. -/
  neg : V → V
  /-- The comparison `p > q`. -/
  gt : V → V → Bool
  /-- The comparison `p < q`. -/
  lt : V → V → Bool
  /-- The function `math.Hypot`. -/
  Hypot : V → V → V
  /-- The function `math.Sin`. -/
  Sin : V → V
  /-- The function `math.Cos`. -/
  Cos : V → V
  /-- The function `math.Atan2`. -/
  Atan2 : V → V → V
  /-- The constant `math.Pi`. -/
  Pi : V

/-- Why a run of `Tick` has left the loop over the actors before its end. -/
inductive Stop where
  /-- A run-time panic: `GetPos` is called through a nil interface or a nil pointer. -/
  | panic
  /-- A loop `for` is still running when the steps allowed to it are used up. -/
  | spin
deriving DecidableEq

/-- The interface call `e.GetPos()`, the actors being those of `s`; `none` when the
pointer is not one of them, where Go panics. -/
def Arith.GetPos {V : Type} (s : Sim V) : Emitter V → Option (V × V)
  | .static st => some (st.PosX, st.PosY)
  | .actor idx =>
    match s.actors[idx]? with
    | some b => some (b.PosX, b.PosY)
    | none => none

/-- The method `ProbeRepulsingField` of sim.go, in the arithmetic `o`. -/
def Arith.ProbeRepulsingField {V : Type} (o : Arith V) (a : Actor V) (x y : V) : V × V :=
  let dx := o.sub a.PosX x
  let dy := o.sub a.PosY y
  let minDistanceNoticeable : ℚ := 150
  let fieldScalingFactor : ℚ := 0.2
  let distance := o.Hypot dx dy
  if o.gt distance (o.lit minDistanceNoticeable) then
    (o.lit 0, o.lit 0)
  else
    let scalarNorm :=
      o.mul (o.sub (o.div (o.lit minDistanceNoticeable) distance) (o.lit 1))
        (o.lit fieldScalingFactor)
    (o.mul dx scalarNorm, o.mul dy scalarNorm)

/-- The method `ProbeAttractingField` of sim.go, in the arithmetic `o`. -/
def Arith.ProbeAttractingField {V : Type} (o : Arith V) (a : Actor V) (x y : V) : V × V :=
  let dx := o.sub x a.PosX
  let dy := o.sub y a.PosY
  let distance := o.Hypot dx dy
  let attractingPower : ℚ := 10
  let scalarNorm := o.mul (o.div (o.lit 1) distance) (o.lit attractingPower)
  (o.mul dx scalarNorm, o.mul dy scalarNorm)

/-- The loop `for res > 360 { res -= 360 }` of `angleBetweenAngles`, allowed `fuel`
subtractions; `none` when it would make one more. -/
def Arith.angleBetweenAngles.loop {V : Type} (o : Arith V) : Nat → V → Option V
  | 0, res => if o.gt res (o.lit 360) then none else some res
  | fuel + 1, res =>
    if o.gt res (o.lit 360) then
      Arith.angleBetweenAngles.loop o fuel (o.sub res (o.lit 360))
    else
      some res

/-- The function `angleBetweenAngles` of sim.go, in the arithmetic `o`; `none` when
its loop has not ended within `fuel` subtractions. -/
def Arith.angleBetweenAngles {V : Type} (o : Arith V) (fuel : Nat) (a1 a2 : V) : Option V :=
  let res := o.add (o.sub a2 a1) (o.lit 180)
  match Arith.angleBetweenAngles.loop o fuel res with
  | none => none
  | some res => some (o.sub res (o.lit 180))

/-- The loop `for direction < 0 { direction += 360 }` of `PlanAhead`, allowed `fuel`
additions; `none` when it would make one more. -/
def Arith.PlanAhead.loop {V : Type} (o : Arith V) : Nat → V → Option V
  | 0, direction => if o.lt direction (o.lit 0) then none else some direction
  | fuel + 1, direction =>
    if o.lt direction (o.lit 0) then
      Arith.PlanAhead.loop o fuel (o.add direction (o.lit 360))
    else
      some direction

/-- The body of the loop `for _, r := range a.repulsors` of `PlanAhead`, in the
arithmetic `o`. -/
def Arith.PlanAhead.addRepulsion {V : Type} (o : Arith V) (s : Sim V) (a : Actor V)
    (f : V × V) (r : Emitter V) : Except Stop (V × V) :=
  match Arith.GetPos s r with
  | none => .error .panic
  | some (rx, ry) =>
    let rf := o.ProbeRepulsingField a rx ry
    .ok (o.add f.1 rf.1, o.add f.2 rf.2)

/-- The method `PlanAhead` of sim.go, in the arithmetic `o`, on the actor `a` of the
simulation `s`: the actor with its new `TargetAngle`, or why the call has not
returned. -/
def Arith.PlanAhead {V : Type} (o : Arith V) (fuel : Nat) (s : Sim V) (a : Actor V) :
    Except Stop (Actor V) :=
  match a.attractor with
  | none => .error .panic
  | some e =>
    match Arith.GetPos s e with
    | none => .error .panic
    | some (ax, ay) =>
      let f := o.ProbeAttractingField a ax ay
      match a.repulsors.foldlM (Arith.PlanAhead.addRepulsion o s a) f with
      | .error stop => .error stop
      | .ok (fx, fy) =>
        let direction := o.add (o.mul (o.div (o.Atan2 fy fx) o.Pi) (o.lit 180)) (o.lit 90)
        match Arith.PlanAhead.loop o fuel direction with
        | none => .error .spin
        | some direction => .ok { a with TargetAngle := direction }

/-- One iteration of the loop `for _, a := range s.actors` of `Tick`, in the
arithmetic `o`, for the actor at index `i`.  The state comes with the reason why the
loop has been left, if it has; then nothing more is written.  When
`angleBetweenAngles` does not return, `PlanAhead` has already written the
`TargetAngle`. -/
def Arith.Tick.body {V : Type} (o : Arith V) (fuel : Nat) (timePassed moved : V)
    (st : Sim V × Option Stop) (i : Nat) : Sim V × Option Stop :=
  match st.2 with
  | some _ => st
  | none =>
    match st.1.actors[i]? with
    | none => st
    | some a =>
      match o.PlanAhead fuel st.1 a with
      | .error stop => (st.1, some stop)
      | .ok a =>
        match o.angleBetweenAngles fuel a.Heading a.TargetAngle with
        | none => ({ st.1 with actors := st.1.actors.set i a }, some .spin)
        | some aba =>
          let speedScale : ℚ := 2.0
          let maxDegreesPerSecond : ℚ := 120 * speedScale
          let maxDegrees := o.mul (o.lit maxDegreesPerSecond) timePassed
          let aba := if o.gt aba maxDegrees then maxDegrees else aba
          let aba := if o.lt aba (o.neg maxDegrees) then o.neg maxDegrees else aba
          let a := { a with Heading := o.add a.Heading aba }
          let dx := o.Sin (o.mul (o.div a.Heading (o.lit 180)) o.Pi)
          let dy := o.neg (o.Cos (o.mul (o.div a.Heading (o.lit 180)) o.Pi))
          let a := { a with PosX := o.add a.PosX (o.mul dx moved) }
          let a := { a with PosY := o.add a.PosY (o.mul dy moved) }
          ({ st.1 with actors := st.1.actors.set i a }, none)

/-- The method `Tick` of sim.go, in the arithmetic `o`, each loop `for` of
`angleBetweenAngles` and `PlanAhead` being allowed `fuel` steps: the state that the
run leaves, and why it has left the loop over the actors if it has not reached its
end. -/
def Arith.Tick {V : Type} (o : Arith V) (fuel : Nat) (s : Sim V) (timePassed : V) :
    Sim V × Option Stop :=
  let speedScale : ℚ := 2.0
  let speed := o.lit (90.0 * speedScale)
  let moved := o.mul speed timePassed
  (List.range s.actors.length).foldl (Arith.Tick.body o fuel timePassed moved) (s, none)

/-- The arithmetic of an ordered field `F`, the one in which `Sim.Tick` and the
functions it calls read `float64`. -/
def Arith.ofField [GoMath F] : Arith F where
  lit q := (q : F)
  add p q := p + q
  sub p q := p - q
  mul p q := p * q
  div p q := p / q
  neg p := -p
  gt p q := decide (p > q)
  lt p q := decide (p < q)
  Hypot := GoMath.Hypot
  Sin := GoMath.Sin
  Cos := GoMath.Cos
  Atan2 := GoMath.Atan2
  Pi := GoMath.Pi

/-! ## The arithmetic of binary64 -/

/-- The integer nearest to `q`, the even one of the two when `q` lies halfway. -/
def binary64.roundEven (q : ℚ) : ℤ :=
  let n := ⌊q⌋
  let r := q - n
  if r < 1 / 2 then n else if r > 1 / 2 then n + 1 else if n % 2 = 0 then n else n + 1

/-- The `float64` nearest to the rational `x`, ties to even: the leading bit of `x`
stands at `2 ^ e`, and `x` is rounded to a multiple of `2 ^ (e - 52)`, which keeps 53
significant bits.  The exponent is not limited: values so large that `float64`
overflows, or so small that it is subnormal, are rounded like the others. -/
def binary64.round (x : ℚ) : ℚ :=
  if x = 0 then 0
  else
    let e : ℤ := Int.log 2 |x|
    let ulp : ℚ := 2 ^ (e - 52)
    binary64.roundEven (x / ulp) * ulp

/-- The arithmetic of IEEE-754 binary64 on finite values of normal size: every
constant and every result of `+`, `-`, `*`, `/` is the exact one, rounded to the
nearest `float64`; a negation and a comparison are exact.  The functions of the
package `math` are those of `math`.  Infinities and `NaN` are not values of it (a
quotient by zero is not what Go computes), so it is used only where none arises. -/
def Arith.binary64 (math : GoMath ℚ) : Arith ℚ where
  lit q := binary64.round q
  add p q := binary64.round (p + q)
  sub p q := binary64.round (p - q)
  mul p q := binary64.round (p * q)
  div p q := binary64.round (p / q)
  neg p := -p
  gt p q := decide (p > q)
  lt p q := decide (p < q)
  Hypot := math.Hypot
  Sin := math.Sin
  Cos := math.Cos
  Atan2 := math.Atan2
  Pi := math.Pi

/-! ## Angles: lemmas -/

section AngleLemmas

variable [FloorRing F]

theorem angleBetweenAngles.loop_of_le {res : F} (h : res ≤ 360) :
    angleBetweenAngles.loop res = res := by
  rw [angleBetweenAngles.loop, dif_neg (not_lt.mpr h)]

theorem angleBetweenAngles.loop_of_gt {res : F} (h : 360 < res) :
    angleBetweenAngles.loop res = angleBetweenAngles.loop (res - 360) := by
  rw [angleBetweenAngles.loop, dif_pos h]

theorem Actor.PlanAhead.loop_of_nonneg {d : F} (h : 0 ≤ d) :
    Actor.PlanAhead.loop d = d := by
  rw [Actor.PlanAhead.loop, dif_neg (not_lt.mpr h)]

theorem Actor.PlanAhead.loop_of_neg {d : F} (h : d < 0) :
    Actor.PlanAhead.loop d = Actor.PlanAhead.loop (d + 360) := by
  rw [Actor.PlanAhead.loop, dif_pos h]

end AngleLemmas

/-- C1 (the code at the spec's own example): `angleBetweenAngles(350, 10)` is `-340`,
which is outside `(-180, 180]` and is not the `20` of the specification, while
`angleBetweenAngles(10, 350)` is `-20` as specified: the loop only brings the
difference down, never up. -/
theorem angleBetweenAngles_350_10 :
    angleBetweenAngles (350 : ℝ) 10 = -340 ∧
      ¬ (-180 < angleBetweenAngles (350 : ℝ) 10) ∧
      angleBetweenAngles (10 : ℝ) 350 = -20 := by
  have h1 : angleBetweenAngles (350 : ℝ) 10 = -340 := by
    simp only [angleBetweenAngles]
    rw [angleBetweenAngles.loop_of_le (by norm_num)]
    norm_num
  have h2 : angleBetweenAngles (10 : ℝ) 350 = -20 := by
    simp only [angleBetweenAngles]
    rw [angleBetweenAngles.loop_of_gt (by norm_num),
      angleBetweenAngles.loop_of_le (by norm_num)]
    norm_num
  refine ⟨h1, ?_, h2⟩
  rw [h1]
  norm_num

section TickLemmas

variable [GoMath F] [FloorRing F]

theorem Sim.Tick.body_ok {dt mv : F} {s s' : Sim F} {k : Nat} {a : Actor F}
    (hk : s.actors[k]? = some a) (h : Sim.Tick.body dt mv s k = .ok s') :
    ∃ ap, a.PlanAhead s = .ok ap ∧
      s' = { s with actors := s.actors.set k (Sim.Tick.advance dt mv ap) } := by
  unfold Sim.Tick.body at h
  rw [hk] at h
  rcases hp : a.PlanAhead s with e | ap
  · simp [hp] at h
  · simp only [hp, Except.ok.injEq] at h
    exact ⟨ap, rfl, h.symm⟩

theorem Sim.Tick.fold_inv {dt mv : F} (s : Sim F) :
    ∀ (k : Nat) (sk : Sim F), k ≤ s.actors.length →
      (List.range k).foldlM (Sim.Tick.body dt mv) s = .ok sk →
      sk.actors.length = s.actors.length ∧ sk.world = s.world ∧
      (∀ i, k ≤ i → sk.actors[i]? = s.actors[i]?) ∧
      (∀ i a, i < k → s.actors[i]? = some a →
        ∃ sm ap, sm.actors[i]? = some a ∧ sm.actors.length = s.actors.length ∧
          sm.world = s.world ∧ a.PlanAhead sm = .ok ap ∧
          sk.actors[i]? = some (Sim.Tick.advance dt mv ap) ∧
          (∀ j, i ≤ j → sm.actors[j]? = s.actors[j]?) ∧
          (∀ j, j < i → sm.actors[j]? = sk.actors[j]?)) := by
  intro k
  induction k with
  | zero =>
    intro sk _ h
    simp only [List.range_zero, List.foldlM_nil] at h
    cases h
    exact ⟨rfl, rfl, fun _ _ => rfl, fun i a hi _ => absurd hi (Nat.not_lt_zero i)⟩
  | succ k ih =>
    intro sk hk h
    rw [List.range_succ, List.foldlM_append] at h
    cases hm : (List.range k).foldlM (Sim.Tick.body dt mv) s with
    | error e => rw [hm] at h; cases h
    | ok sm =>
      rw [hm] at h
      have hstep : Sim.Tick.body dt mv sm k = .ok sk := by
        simp only [List.foldlM_cons, List.foldlM_nil, bind, Except.bind] at h
        rcases hb : Sim.Tick.body dt mv sm k with e | x
        · simp [hb] at h
        · simpa [hb, pure, Except.pure] using h
      obtain ⟨hlen, hw, hge, hlt⟩ := ih sm (Nat.le_of_succ_le hk) hm
      have hklt : k < s.actors.length := hk
      obtain ⟨ak, hak⟩ : ∃ ak, s.actors[k]? = some ak :=
        ⟨s.actors[k], List.getElem?_eq_getElem hklt⟩
      have hsmk : sm.actors[k]? = some ak := by rw [hge k (le_refl k)]; exact hak
      obtain ⟨ap, hplan, hsk⟩ := Sim.Tick.body_ok hsmk hstep
      subst hsk
      refine ⟨by simpa using hlen, hw, ?_, ?_⟩
      · intro i hi
        have hne : k ≠ i := by omega
        simp only [List.getElem?_set_ne hne]
        exact hge i (by omega)
      · intro i a hi hia
        by_cases hik : i = k
        · subst hik
          have : a = ak := by rw [hak] at hia; exact (Option.some.inj hia).symm
          subst this
          refine ⟨sm, ap, hsmk, hlen, hw, hplan, ?_, hge, ?_⟩
          · have : i < sm.actors.length := by rw [hlen]; exact hklt
            simp [List.getElem?_set_self this]
          · intro j hj
            have hne : i ≠ j := by omega
            simp only [List.getElem?_set_ne hne]
        · obtain ⟨sm', ap', h1, h2, h3, h4, h5, h6, h7⟩ := hlt i a (by omega) hia
          have hne : k ≠ i := fun h => hik h.symm
          refine ⟨sm', ap', h1, h2, h3, h4, ?_, h6, ?_⟩
          · simp only [List.getElem?_set_ne hne]
            exact h5
          · intro j hj
            have hne' : k ≠ j := by omega
            simp only [List.getElem?_set_ne hne']
            exact h7 j hj

/-- What `Tick` does to the actor at index `i`: when its turn comes the simulation
is in a state `sm` in which the actors before it are already as they are after the
tick and the actors from it on are still as they were before the tick; the actor
plans against `sm`, and then turns and moves. -/
theorem Sim.Tick_actor_inplace {dt : F} {s s' : Sim F} {i : Nat} {a : Actor F}
    (h : s.Tick dt = .ok s') (hi : s.actors[i]? = some a) :
    ∃ sm ap, sm.actors[i]? = some a ∧ sm.actors.length = s.actors.length ∧
      sm.world = s.world ∧ a.PlanAhead sm = .ok ap ∧
      s'.actors[i]? = some (Sim.Tick.advance dt (90.0 * 2.0 * dt) ap) ∧
      (∀ j, i ≤ j → sm.actors[j]? = s.actors[j]?) ∧
      (∀ j, j < i → sm.actors[j]? = s'.actors[j]?) := by
  have hlt : i < s.actors.length := by
    by_contra hc
    rw [List.getElem?_eq_none (not_lt.mp hc)] at hi
    cases hi
  exact (Sim.Tick.fold_inv s s.actors.length s' (le_refl _) h).2.2.2 i a hlt hi

theorem Sim.Tick_actor {dt : F} {s s' : Sim F} {i : Nat} {a : Actor F}
    (h : s.Tick dt = .ok s') (hi : s.actors[i]? = some a) :
    ∃ sm ap, sm.actors[i]? = some a ∧ sm.actors.length = s.actors.length ∧
      sm.world = s.world ∧ a.PlanAhead sm = .ok ap ∧
      s'.actors[i]? = some (Sim.Tick.advance dt (90.0 * 2.0 * dt) ap) := by
  obtain ⟨sm, ap, h1, h2, h3, h4, h5, -, -⟩ := Sim.Tick_actor_inplace h hi
  exact ⟨sm, ap, h1, h2, h3, h4, h5⟩

theorem Sim.Tick_length {dt : F} {s s' : Sim F} (h : s.Tick dt = .ok s') :
    s'.actors.length = s.actors.length ∧ s'.world = s.world :=
  ⟨(Sim.Tick.fold_inv s s.actors.length s' (le_refl _) h).1,
   (Sim.Tick.fold_inv s s.actors.length s' (le_refl _) h).2.1⟩

end TickLemmas

/-! ## The `math` package over the reals -/

theorem Hypot_real (p q : ℝ) : GoMath.Hypot p q = Real.sqrt (p * p + q * q) := rfl

theorem Sin_real (x : ℝ) : GoMath.Sin x = Real.sin x := rfl

theorem Cos_real (x : ℝ) : GoMath.Cos x = Real.cos x := rfl

theorem Atan2_real (y x : ℝ) : GoMath.Atan2 y x = Complex.arg ⟨x, y⟩ := rfl

theorem Pi_real : (GoMath.Pi : ℝ) = Real.pi := rfl

/-! ## The example states -/

theorem northActor_PlanAhead (h t : ℝ) (s : Sim ℝ) :
    (northActor h t).PlanAhead s = .ok (northActor h 0) := by
  have hs : Real.sqrt ((0 - 0) * (0 - 0) + (-10 - 0) * (-10 - 0)) = 10 := by
    rw [show ((0:ℝ) - 0) * (0 - 0) + (-10 - 0) * (-10 - 0) = 10 * 10 by norm_num]
    exact Real.sqrt_mul_self (by norm_num)
  have harg : Complex.arg ⟨0, -10⟩ = -(Real.pi / 2) :=
    Complex.arg_eq_neg_pi_div_two_iff.mpr ⟨rfl, by norm_num⟩
  have hforce : Actor.PlanAhead.force s (northActor h t) = .ok (0, -10) := by
    simp only [Actor.PlanAhead.force, northActor, Emitter.GetPos, Static.GetPos,
      Actor.ProbeAttractingField, Hypot_real, hs, List.foldlM_nil]
    norm_num
    rfl
  have hdir : -(Real.pi / 2) / Real.pi * 180 + 90 = 0 := by
    field_simp
    ring
  simp only [Actor.PlanAhead, hforce, Atan2_real, Pi_real, harg, hdir]
  rw [Actor.PlanAhead.loop_of_nonneg (le_refl 0)]
  rfl

theorem northSim_Tick (h t dt : ℝ) :
    (northSim h t).Tick dt =
      .ok { world := [], actors := [Sim.Tick.advance dt (90.0 * 2.0 * dt) (northActor h 0)] } := by
  have hr : List.range 1 = [0] := rfl
  simp only [Sim.Tick, northSim, List.length_singleton, hr, List.foldlM_cons,
    List.foldlM_nil, Sim.Tick.body, List.getElem?_cons_zero, northActor_PlanAhead]
  rfl

/-! ## Tick: the turn and the move -/

section AdvanceLemmas

variable [GoMath F] [FloorRing F]

theorem Actor.PlanAhead_frame {s : Sim F} {a ap : Actor F} (h : a.PlanAhead s = .ok ap) :
    ap.PosX = a.PosX ∧ ap.PosY = a.PosY ∧ ap.Heading = a.Heading ∧
      ap.attractor = a.attractor ∧ ap.repulsors = a.repulsors := by
  unfold Actor.PlanAhead at h
  rcases hf : Actor.PlanAhead.force s a with e | f
  · simp [hf] at h
  · simp only [hf, Except.ok.injEq] at h
    subst h
    exact ⟨rfl, rfl, rfl, rfl, rfl⟩

theorem Sim.Tick.advance_Heading (dt mv : F) (a : Actor F) :
    (Sim.Tick.advance dt mv a).Heading =
      a.Heading +
        (if (if angleBetweenAngles a.Heading a.TargetAngle > 120 * 2.0 * dt then 120 * 2.0 * dt
              else angleBetweenAngles a.Heading a.TargetAngle) < -(120 * 2.0 * dt)
          then -(120 * 2.0 * dt)
          else (if angleBetweenAngles a.Heading a.TargetAngle > 120 * 2.0 * dt
            then 120 * 2.0 * dt else angleBetweenAngles a.Heading a.TargetAngle)) := rfl

theorem Sim.Tick.advance_TargetAngle (dt mv : F) (a : Actor F) :
    (Sim.Tick.advance dt mv a).TargetAngle = a.TargetAngle := rfl

theorem Sim.Tick.advance_PosX (dt mv : F) (a : Actor F) :
    (Sim.Tick.advance dt mv a).PosX =
      a.PosX + GoMath.Sin ((Sim.Tick.advance dt mv a).Heading / 180 * GoMath.Pi) * mv := rfl

theorem Sim.Tick.advance_PosY (dt mv : F) (a : Actor F) :
    (Sim.Tick.advance dt mv a).PosY =
      a.PosY + -GoMath.Cos ((Sim.Tick.advance dt mv a).Heading / 180 * GoMath.Pi) * mv := rfl

end AdvanceLemmas

/-- The two `if` statements of `Tick` clamp the raw delta when the limit is not
negative. -/
theorem Sim.Tick.clamp_eq {m r : F} (hm : 0 ≤ m) :
    (if (if r > m then m else r) < -m then -m else (if r > m then m else r)) =
      max (-m) (min m r) := by
  by_cases h1 : r > m
  · have h2 : ¬ m < -m := by linarith
    rw [if_pos h1, if_neg h2, min_eq_left (le_of_lt h1), max_eq_right (by linarith)]
  · rw [if_neg h1, min_eq_right (not_lt.mp h1)]
    by_cases h3 : r < -m
    · rw [if_pos h3, max_eq_left (le_of_lt h3)]
    · rw [if_neg h3, max_eq_right (not_lt.mp h3)]

/-- C2 as amended: whenever `Tick(dt)` with `dt ≥ 0` runs to its end, every actor `a`
of the simulation has planned a fresh target angle against the state `sm` in which
its turn came (the actors before it already updated, the others not yet), and its
heading has changed by exactly `angleBetweenAngles(old heading, that target angle)`
clamped into `[-240 dt, 240 dt]`; so the change is at most `240 dt` in absolute
value, and with `dt = 0.5` a raw delta of `170` advances the heading by exactly
`120`. -/
theorem Tick_heading_clamped (s s' : Sim ℝ) (dt : ℝ) (i : Nat) (a : Actor ℝ)
    (hdt : 0 ≤ dt) (h : s.Tick dt = .ok s') (hi : s.actors[i]? = some a) :
    ∃ sm ap a', sm.actors[i]? = some a ∧ a.PlanAhead sm = .ok ap ∧
      s'.actors[i]? = some a' ∧ a'.TargetAngle = ap.TargetAngle ∧
      a'.Heading = a.Heading +
        max (-(240 * dt)) (min (240 * dt) (angleBetweenAngles a.Heading ap.TargetAngle)) ∧
      |a'.Heading - a.Heading| ≤ 240 * dt ∧
      (dt = 0.5 → angleBetweenAngles a.Heading ap.TargetAngle = 170 →
        a'.Heading = a.Heading + 120) ∧
      (∀ j, i ≤ j → sm.actors[j]? = s.actors[j]?) ∧
      (∀ j, j < i → sm.actors[j]? = s'.actors[j]?) := by
  obtain ⟨sm, ap, hsm, -, -, hplan, hs', hafter, hbefore⟩ := Sim.Tick_actor_inplace h hi
  obtain ⟨-, -, hH, -, -⟩ := Actor.PlanAhead_frame hplan
  have h240 : (120 : ℝ) * 2.0 * dt = 240 * dt := by norm_num
  have hm : (0 : ℝ) ≤ 240 * dt := by positivity
  have hhead : (Sim.Tick.advance dt (90.0 * 2.0 * dt) ap).Heading = a.Heading +
      max (-(240 * dt)) (min (240 * dt) (angleBetweenAngles a.Heading ap.TargetAngle)) := by
    rw [Sim.Tick.advance_Heading, h240, Sim.Tick.clamp_eq hm, hH]
  refine ⟨sm, ap, _, hsm, hplan, hs', rfl, hhead, ?_, ?_, hafter, hbefore⟩
  · rw [hhead, add_sub_cancel_left, abs_le]
    exact ⟨le_max_left _ _, max_le (by linarith) (min_le_left _ _)⟩
  · intro hd hraw
    rw [hhead, hraw, hd]
    norm_num

/-- C2 as amended, at an actor heading `-170` whose fresh target angle is `0` (raw delta `170`),
with `dt = 0.5`. -/
theorem Tick_heading_clamped_witness :
    (0 : ℝ) ≤ 0.5 ∧
    (northSim (-170 : ℝ) 5).Tick 0.5 =
      .ok { world := [],
            actors := [Sim.Tick.advance 0.5 (90.0 * 2.0 * 0.5) (northActor (-170) 0)] } ∧
    (northSim (-170 : ℝ) 5).actors[0]? = some (northActor (-170 : ℝ) 5) ∧
    ∃ (sm : Sim ℝ) (ap a' : Actor ℝ), sm.actors[0]? = some (northActor (-170 : ℝ) 5) ∧
      (northActor (-170 : ℝ) 5).PlanAhead sm = .ok ap ∧
      (Sim.mk ([] : List (Event ℝ))
        [Sim.Tick.advance 0.5 (90.0 * 2.0 * 0.5) (northActor (-170) 0)]).actors[0]? = some a' ∧
      a'.TargetAngle = ap.TargetAngle ∧
      a'.Heading = (northActor (-170 : ℝ) 5).Heading +
        max (-(240 * 0.5)) (min (240 * 0.5)
          (angleBetweenAngles (northActor (-170 : ℝ) 5).Heading ap.TargetAngle)) ∧
      |a'.Heading - (northActor (-170 : ℝ) 5).Heading| ≤ 240 * 0.5 ∧
      ((0.5 : ℝ) = 0.5 →
        angleBetweenAngles (northActor (-170 : ℝ) 5).Heading ap.TargetAngle = 170 →
        a'.Heading = (northActor (-170 : ℝ) 5).Heading + 120) ∧
      (∀ j, 0 ≤ j → sm.actors[j]? = (northSim (-170 : ℝ) 5).actors[j]?) ∧
      (∀ j, j < 0 → sm.actors[j]? = (Sim.mk ([] : List (Event ℝ))
        [Sim.Tick.advance 0.5 (90.0 * 2.0 * 0.5) (northActor (-170) 0)]).actors[j]?) :=
  ⟨by norm_num, northSim_Tick _ _ _, rfl,
    Tick_heading_clamped _ _ 0.5 0 _ (by norm_num) (northSim_Tick _ _ _) rfl⟩

/-- C3 as amended: whenever `Tick(dt)` runs to its end, for any `dt`, every actor `a`
has been displaced by `(180 dt sin H', -180 dt cos H')`, where `H'` is its heading
after this tick's turn, in radians; so it has moved exactly `180 |dt|` units, and an
actor at `(0, 0)` whose heading is and stays `0` is at `(0, -180)` after a tick with
`dt = 1`. -/
theorem Tick_displacement (s s' : Sim ℝ) (dt : ℝ) (i : Nat) (a : Actor ℝ)
    (h : s.Tick dt = .ok s') (hi : s.actors[i]? = some a) :
    ∃ a', s'.actors[i]? = some a' ∧
      a'.PosX = a.PosX + 180 * dt * Real.sin (a'.Heading / 180 * Real.pi) ∧
      a'.PosY = a.PosY + -180 * dt * Real.cos (a'.Heading / 180 * Real.pi) ∧
      Real.sqrt ((a'.PosX - a.PosX) ^ 2 + (a'.PosY - a.PosY) ^ 2) = 180 * |dt| ∧
      (a.PosX = 0 → a.PosY = 0 → a.Heading = 0 → a'.Heading = 0 → dt = 1 →
        a'.PosX = 0 ∧ a'.PosY = -180) := by
  obtain ⟨sm, ap, -, -, -, hplan, hs'⟩ := Sim.Tick_actor h hi
  obtain ⟨hX, hY, -, -, -⟩ := Actor.PlanAhead_frame hplan
  have h180 : (90.0 : ℝ) * 2.0 * dt = 180 * dt := by norm_num
  have hx : (Sim.Tick.advance dt (90.0 * 2.0 * dt) ap).PosX = a.PosX + 180 * dt *
      Real.sin ((Sim.Tick.advance dt (90.0 * 2.0 * dt) ap).Heading / 180 * Real.pi) := by
    rw [Sim.Tick.advance_PosX, hX, h180, Sin_real, Pi_real]
    ring
  have hy : (Sim.Tick.advance dt (90.0 * 2.0 * dt) ap).PosY = a.PosY + -180 * dt *
      Real.cos ((Sim.Tick.advance dt (90.0 * 2.0 * dt) ap).Heading / 180 * Real.pi) := by
    rw [Sim.Tick.advance_PosY, hY, h180, Cos_real, Pi_real]
    ring
  refine ⟨_, hs', hx, hy, ?_, ?_⟩
  · rw [hx, hy, add_sub_cancel_left, add_sub_cancel_left]
    have hsc := Real.sin_sq_add_cos_sq
      ((Sim.Tick.advance dt (90.0 * 2.0 * dt) ap).Heading / 180 * Real.pi)
    have hsq : (180 * dt * Real.sin
          ((Sim.Tick.advance dt (90.0 * 2.0 * dt) ap).Heading / 180 * Real.pi)) ^ 2 +
        (-180 * dt * Real.cos
          ((Sim.Tick.advance dt (90.0 * 2.0 * dt) ap).Heading / 180 * Real.pi)) ^ 2 =
        (180 * |dt|) ^ 2 := by
      rw [mul_pow 180 |dt|, sq_abs]
      linear_combination (180 * dt) ^ 2 * hsc
    rw [hsq]
    exact Real.sqrt_sq (by positivity)
  · intro h0x h0y _ hH' hd
    rw [hx, hy, hH', h0x, h0y, hd]
    norm_num

/-- C3 as amended, at an actor at `(0, 0)` with heading `0` whose fresh target angle is `0`, with
`dt = 1`: it moves to `(0, -180)`. -/
theorem Tick_displacement_witness :
    (northSim (0 : ℝ) 5).Tick 1 =
      .ok { world := [],
            actors := [Sim.Tick.advance 1 (90.0 * 2.0 * 1) (northActor 0 0)] } ∧
    (northSim (0 : ℝ) 5).actors[0]? = some (northActor (0 : ℝ) 5) ∧
    (Sim.Tick.advance (1 : ℝ) (90.0 * 2.0 * 1) (northActor 0 0)).Heading = 0 ∧
    ∃ a' : Actor ℝ,
      (Sim.mk ([] : List (Event ℝ))
        [Sim.Tick.advance 1 (90.0 * 2.0 * 1) (northActor 0 0)]).actors[0]? = some a' ∧
      a'.PosX = (northActor (0 : ℝ) 5).PosX + 180 * 1 * Real.sin (a'.Heading / 180 * Real.pi) ∧
      a'.PosY = (northActor (0 : ℝ) 5).PosY + -180 * 1 * Real.cos (a'.Heading / 180 * Real.pi) ∧
      Real.sqrt ((a'.PosX - (northActor (0 : ℝ) 5).PosX) ^ 2 +
        (a'.PosY - (northActor (0 : ℝ) 5).PosY) ^ 2) = 180 * |(1 : ℝ)| ∧
      ((northActor (0 : ℝ) 5).PosX = 0 → (northActor (0 : ℝ) 5).PosY = 0 →
        (northActor (0 : ℝ) 5).Heading = 0 → a'.Heading = 0 → (1 : ℝ) = 1 →
        a'.PosX = 0 ∧ a'.PosY = -180) := by
  refine ⟨northSim_Tick _ _ _, rfl, ?_,
    Tick_displacement _ _ 1 0 _ (northSim_Tick _ _ _) rfl⟩
  have haba : angleBetweenAngles (0 : ℝ) 0 = 0 := by
    simp only [angleBetweenAngles]
    rw [angleBetweenAngles.loop_of_le (by norm_num)]
    norm_num
  rw [Sim.Tick.advance_Heading]
  simp only [northActor, haba]
  norm_num

/-! ## The force fields -/

/-- C4: when the source `(x, y)` is farther than 150 from the actor (the probe),
`ProbeRepulsingField` returns exactly `(0, 0)`. -/
theorem ProbeRepulsingField_far (a : Actor ℝ) (x y : ℝ)
    (h : Real.sqrt ((a.PosX - x) ^ 2 + (a.PosY - y) ^ 2) > 150) :
    a.ProbeRepulsingField x y = .ok (0, 0) := by
  have h' : Real.sqrt ((a.PosX - x) * (a.PosX - x) + (a.PosY - y) * (a.PosY - y)) > 150 := by
    rw [← sq, ← sq]
    exact h
  simp only [Actor.ProbeRepulsingField, Hypot_real, if_pos h']

/-- C4, at the probe `(0, 0)` and the source `(200, 0)`, at distance 200. -/
theorem ProbeRepulsingField_far_witness :
    Real.sqrt (((probeActor (0 : ℝ) 0).PosX - 200) ^ 2 +
      ((probeActor (0 : ℝ) 0).PosY - 0) ^ 2) > 150 ∧
    (probeActor (0 : ℝ) 0).ProbeRepulsingField 200 0 = .ok (0, 0) := by
  have h : Real.sqrt (((probeActor (0 : ℝ) 0).PosX - 200) ^ 2 +
      ((probeActor (0 : ℝ) 0).PosY - 0) ^ 2) > 150 := by
    rw [gt_iff_lt, Real.lt_sqrt (by norm_num)]
    simp only [probeActor]
    norm_num
  exact ⟨h, ProbeRepulsingField_far (probeActor 0 0) 200 0 h⟩

/-- C5: when the source `(x, y)` is at distance `d` from the actor (the probe) with
`0 < d ≤ 150`, `ProbeRepulsingField` returns the vector from source to probe scaled
by `(150 / d - 1) * 0.2`, which is not negative and is `0` at `d = 150`; for the
source `(0, 0)` and the probe `(75, 0)` it returns `(15, 0)`. -/
theorem ProbeRepulsingField_near (a : Actor ℝ) (x y d : ℝ)
    (hd : d = Real.sqrt ((a.PosX - x) ^ 2 + (a.PosY - y) ^ 2))
    (h0 : 0 < d) (h150 : d ≤ 150) :
    a.ProbeRepulsingField x y =
        .ok ((a.PosX - x) * ((150 / d - 1) * 0.2), (a.PosY - y) * ((150 / d - 1) * 0.2)) ∧
      0 ≤ (150 / d - 1) * 0.2 ∧
      (d = 150 → a.ProbeRepulsingField x y = .ok (0, 0)) ∧
      (a.PosX = 75 → a.PosY = 0 → x = 0 → y = 0 →
        a.ProbeRepulsingField x y = .ok (15, 0)) := by
  have hd' : Real.sqrt ((a.PosX - x) * (a.PosX - x) + (a.PosY - y) * (a.PosY - y)) = d := by
    rw [← sq, ← sq]
    exact hd.symm
  have hval : a.ProbeRepulsingField x y =
      .ok ((a.PosX - x) * ((150 / d - 1) * 0.2), (a.PosY - y) * ((150 / d - 1) * 0.2)) := by
    simp only [Actor.ProbeRepulsingField, Hypot_real, hd', if_neg (not_lt.mpr h150),
      if_neg (ne_of_gt h0)]
  refine ⟨hval, ?_, ?_, ?_⟩
  · have : (1 : ℝ) ≤ 150 / d := by
      rw [le_div_iff₀ h0]
      linarith
    have h2 : (0 : ℝ) ≤ 150 / d - 1 := by linarith
    positivity
  · intro h
    rw [hval, h]
    norm_num
  · intro hx hy hx0 hy0
    have h75 : d = 75 := by
      rw [hd, hx, hy, hx0, hy0]
      rw [show ((75 : ℝ) - 0) ^ 2 + (0 - 0) ^ 2 = 75 ^ 2 by norm_num]
      exact Real.sqrt_sq (by norm_num)
    rw [hval, h75, hx, hy, hx0, hy0]
    norm_num

/-- C5, at the probe `(75, 0)` and the source `(0, 0)`, at distance 75. -/
theorem ProbeRepulsingField_near_witness :
    (75 : ℝ) = Real.sqrt (((probeActor (75 : ℝ) 0).PosX - 0) ^ 2 +
      ((probeActor (75 : ℝ) 0).PosY - 0) ^ 2) ∧
    (0 : ℝ) < 75 ∧ (75 : ℝ) ≤ 150 ∧
    (probeActor (75 : ℝ) 0).ProbeRepulsingField 0 0 = .ok (15, 0) := by
  have hd : (75 : ℝ) = Real.sqrt (((probeActor (75 : ℝ) 0).PosX - 0) ^ 2 +
      ((probeActor (75 : ℝ) 0).PosY - 0) ^ 2) := by
    simp only [probeActor]
    rw [show ((75 : ℝ) - 0) ^ 2 + (0 - 0) ^ 2 = 75 ^ 2 by norm_num]
    exact (Real.sqrt_sq (by norm_num)).symm
  exact ⟨hd, by norm_num, by norm_num,
    (ProbeRepulsingField_near (probeActor 75 0) 0 0 75 hd (by norm_num) (by norm_num)).2.2.2
      rfl rfl rfl rfl⟩

/-- C6: when the source `(x, y)` is at distance `d > 0` from the actor (the probe),
`ProbeAttractingField` returns the vector from probe to source scaled by `10 / d`,
a positive factor; for the source `(10, 0)` and the probe `(0, 0)` it returns
`(10, 0)`. -/
theorem ProbeAttractingField_eq (a : Actor ℝ) (x y d : ℝ)
    (hd : d = Real.sqrt ((x - a.PosX) ^ 2 + (y - a.PosY) ^ 2)) (h0 : 0 < d) :
    a.ProbeAttractingField x y =
        .ok ((x - a.PosX) * (10 / d), (y - a.PosY) * (10 / d)) ∧
      0 < 10 / d ∧
      (a.PosX = 0 → a.PosY = 0 → x = 10 → y = 0 →
        a.ProbeAttractingField x y = .ok (10, 0)) := by
  have hd' : Real.sqrt ((x - a.PosX) * (x - a.PosX) + (y - a.PosY) * (y - a.PosY)) = d := by
    rw [← sq, ← sq]
    exact hd.symm
  have hval : a.ProbeAttractingField x y =
      .ok ((x - a.PosX) * (10 / d), (y - a.PosY) * (10 / d)) := by
    simp only [Actor.ProbeAttractingField, Hypot_real, hd', if_neg (ne_of_gt h0)]
    rw [one_div_mul_eq_div]
  refine ⟨hval, by positivity, ?_⟩
  intro hx hy hx0 hy0
  have h10 : d = 10 := by
    rw [hd, hx, hy, hx0, hy0]
    rw [show ((10 : ℝ) - 0) ^ 2 + (0 - 0) ^ 2 = 10 ^ 2 by norm_num]
    exact Real.sqrt_sq (by norm_num)
  rw [hval, h10, hx, hy, hx0, hy0]
  norm_num

/-- C6, at the probe `(0, 0)` and the source `(10, 0)`, at distance 10. -/
theorem ProbeAttractingField_eq_witness :
    (10 : ℝ) = Real.sqrt ((10 - (probeActor (0 : ℝ) 0).PosX) ^ 2 +
      (0 - (probeActor (0 : ℝ) 0).PosY) ^ 2) ∧
    (0 : ℝ) < 10 ∧
    (probeActor (0 : ℝ) 0).ProbeAttractingField 10 0 = .ok (10, 0) := by
  have hd : (10 : ℝ) = Real.sqrt ((10 - (probeActor (0 : ℝ) 0).PosX) ^ 2 +
      (0 - (probeActor (0 : ℝ) 0).PosY) ^ 2) := by
    simp only [probeActor]
    rw [show ((10 : ℝ) - 0) ^ 2 + (0 - 0) ^ 2 = 10 ^ 2 by norm_num]
    exact (Real.sqrt_sq (by norm_num)).symm
  exact ⟨hd, by norm_num,
    (ProbeAttractingField_eq (probeActor 0 0) 10 0 10 hd (by norm_num)).2.2 rfl rfl rfl rfl⟩

/-! ## PlanAhead -/

theorem Hypot_real_eq_zero {p q : ℝ} : GoMath.Hypot p q = 0 ↔ p = 0 ∧ q = 0 := by
  rw [Hypot_real, Real.sqrt_eq_zero (add_nonneg (mul_self_nonneg p) (mul_self_nonneg q))]
  constructor
  · intro h
    exact ⟨by nlinarith [mul_self_nonneg p, mul_self_nonneg q],
      by nlinarith [mul_self_nonneg p, mul_self_nonneg q]⟩
  · rintro ⟨rfl, rfl⟩
    norm_num

theorem Actor.ProbeAttractingField_ok (a : Actor ℝ) {x y : ℝ}
    (h : (x, y) ≠ (a.PosX, a.PosY)) : ∃ f, a.ProbeAttractingField x y = .ok f := by
  have hne : ¬ GoMath.Hypot (x - a.PosX) (y - a.PosY) = 0 := by
    rw [Hypot_real_eq_zero]
    rintro ⟨h1, h2⟩
    exact h (by rw [sub_eq_zero.mp h1, sub_eq_zero.mp h2])
  simp only [Actor.ProbeAttractingField, if_neg hne]
  exact ⟨_, rfl⟩

theorem Actor.ProbeRepulsingField_ok (a : Actor ℝ) {x y : ℝ}
    (h : (x, y) ≠ (a.PosX, a.PosY)) : ∃ f, a.ProbeRepulsingField x y = .ok f := by
  have hne : ¬ GoMath.Hypot (a.PosX - x) (a.PosY - y) = 0 := by
    rw [Hypot_real_eq_zero]
    rintro ⟨h1, h2⟩
    exact h (by rw [sub_eq_zero.mp h1, sub_eq_zero.mp h2])
  simp only [Actor.ProbeRepulsingField, if_neg hne]
  split
  · exact ⟨_, rfl⟩
  · exact ⟨_, rfl⟩

theorem Actor.PlanAhead.addRepulsion_ok (s : Sim ℝ) (a : Actor ℝ) (f : ℝ × ℝ)
    {r : Emitter ℝ} {q : ℝ × ℝ} (hq : r.GetPos s = .ok q) (hne : q ≠ (a.PosX, a.PosY)) :
    ∃ f', Actor.PlanAhead.addRepulsion s a f r = .ok f' := by
  obtain ⟨g, hg⟩ := Actor.ProbeRepulsingField_ok a (x := q.1) (y := q.2) hne
  simp only [Actor.PlanAhead.addRepulsion, hq, hg]
  exact ⟨_, rfl⟩

theorem Actor.PlanAhead.foldlM_ok (s : Sim ℝ) (a : Actor ℝ) :
    ∀ (l : List (Emitter ℝ)) (f : ℝ × ℝ),
      (∀ r ∈ l, ∃ q, r.GetPos s = .ok q ∧ q ≠ (a.PosX, a.PosY)) →
      ∃ f', l.foldlM (Actor.PlanAhead.addRepulsion s a) f = .ok f' := by
  intro l
  induction l with
  | nil => intro f _; exact ⟨f, rfl⟩
  | cons r l ih =>
    intro f h
    obtain ⟨q, hq, hne⟩ := h r (List.mem_cons_self r l)
    obtain ⟨f1, hf1⟩ := Actor.PlanAhead.addRepulsion_ok s a f hq hne
    obtain ⟨f2, hf2⟩ := ih f1 (fun r' hr' => h r' (List.mem_cons_of_mem r hr'))
    refine ⟨f2, ?_⟩
    simp only [List.foldlM_cons, hf1, bind, Except.bind]
    exact hf2

/-- The loop of `PlanAhead` on a direction in `(-90, 270]`: the value lands in
`[0, 360)` and is the direction reduced modulo 360. -/
theorem Actor.PlanAhead.loop_range {d : ℝ} (h1 : -90 < d) (h2 : d ≤ 270) :
    0 ≤ Actor.PlanAhead.loop d ∧ Actor.PlanAhead.loop d < 360 ∧
      Actor.PlanAhead.loop d = d - 360 * (⌊d / 360⌋ : ℝ) := by
  by_cases h0 : 0 ≤ d
  · have hfl : ⌊d / 360⌋ = 0 := by
      rw [Int.floor_eq_iff]
      constructor
      · simp only [Int.cast_zero]; positivity
      · simp only [Int.cast_zero, zero_add]
        rw [div_lt_one (by norm_num)]
        linarith
    rw [Actor.PlanAhead.loop_of_nonneg h0, hfl]
    refine ⟨h0, by linarith, by simp⟩
  · have hneg : d < 0 := not_le.mp h0
    have hfl : ⌊d / 360⌋ = -1 := by
      rw [Int.floor_eq_iff]
      constructor
      · simp only [Int.cast_neg, Int.cast_one]
        rw [le_div_iff₀ (by norm_num)]
        linarith
      · simp only [Int.cast_neg, Int.cast_one, neg_add_cancel]
        exact div_neg_of_neg_of_pos hneg (by norm_num)
    rw [Actor.PlanAhead.loop_of_neg hneg, Actor.PlanAhead.loop_of_nonneg (by linarith), hfl]
    refine ⟨by linarith, by linarith, ?_⟩
    simp only [Int.cast_neg, Int.cast_one]
    ring

theorem Atan2_degrees_range (fy fx : ℝ) :
    -90 < GoMath.Atan2 fy fx / GoMath.Pi * 180 + 90 ∧
      GoMath.Atan2 fy fx / GoMath.Pi * 180 + 90 ≤ 270 := by
  rw [Atan2_real, Pi_real]
  have hpi := Real.pi_pos
  have h1 := Complex.neg_pi_lt_arg ⟨fx, fy⟩
  have h2 := Complex.arg_le_pi ⟨fx, fy⟩
  have h3 : -1 < Complex.arg ⟨fx, fy⟩ / Real.pi := by
    rw [lt_div_iff₀ hpi]
    linarith
  have h4 : Complex.arg ⟨fx, fy⟩ / Real.pi ≤ 1 := by
    rw [div_le_one hpi]
    exact h2
  constructor <;> linarith

/-- C7 as amended: for an actor that has an attractor and stands at a position
different from that of its attractor and from that of each of its repulsors,
`PlanAhead` computes a net force `(fx, fy)` and sets `TargetAngle` to
`atan2(fy, fx)` in degrees plus 90, reduced modulo 360, a value in `[0, 360)`. -/
theorem PlanAhead_target_range (s : Sim ℝ) (a : Actor ℝ) (e : Emitter ℝ) (p : ℝ × ℝ)
    (hatt : a.attractor = some e) (hp : e.GetPos s = .ok p) (hne : p ≠ (a.PosX, a.PosY))
    (hrep : ∀ r ∈ a.repulsors, ∃ q, r.GetPos s = .ok q ∧ q ≠ (a.PosX, a.PosY)) :
    ∃ fx fy ap, Actor.PlanAhead.force s a = .ok (fx, fy) ∧ a.PlanAhead s = .ok ap ∧
      0 ≤ ap.TargetAngle ∧ ap.TargetAngle < 360 ∧
      ap.TargetAngle = (Complex.arg ⟨fx, fy⟩ / Real.pi * 180 + 90) -
        360 * (⌊(Complex.arg ⟨fx, fy⟩ / Real.pi * 180 + 90) / 360⌋ : ℝ) := by
  obtain ⟨f0, hf0⟩ := Actor.ProbeAttractingField_ok a (x := p.1) (y := p.2) hne
  obtain ⟨f, hf⟩ := Actor.PlanAhead.foldlM_ok s a a.repulsors f0 hrep
  have hforce : Actor.PlanAhead.force s a = .ok (f.1, f.2) := by
    simp only [Actor.PlanAhead.force, hatt, hp, hf0]
    exact hf
  obtain ⟨hlo, hhi⟩ := Atan2_degrees_range f.2 f.1
  obtain ⟨h0, h360, hmod⟩ := Actor.PlanAhead.loop_range hlo hhi
  refine ⟨f.1, f.2,
    { a with TargetAngle :=
        Actor.PlanAhead.loop (GoMath.Atan2 f.2 f.1 / GoMath.Pi * 180 + 90) },
    hforce, ?_, h0, h360, hmod⟩
  simp only [Actor.PlanAhead, hforce]
/-- C7 as amended, at an actor at the origin with its attractor at `(0, -10)` and
repulsors at `(200, 0)` and `(0, 75)`. -/
theorem PlanAhead_target_range_witness :
    (guardedActor : Actor ℝ).attractor = some (.static { PosX := 0, PosY := -10 }) ∧
    (Emitter.static { PosX := 0, PosY := -10 } : Emitter ℝ).GetPos stuckSim = .ok (0, -10) ∧
    ((0 : ℝ), (-10 : ℝ)) ≠ ((guardedActor : Actor ℝ).PosX, (guardedActor : Actor ℝ).PosY) ∧
    (∀ r ∈ (guardedActor : Actor ℝ).repulsors, ∃ q, r.GetPos stuckSim = .ok q ∧
      q ≠ ((guardedActor : Actor ℝ).PosX, (guardedActor : Actor ℝ).PosY)) ∧
    ∃ fx fy ap, Actor.PlanAhead.force stuckSim (guardedActor : Actor ℝ) = .ok (fx, fy) ∧
      (guardedActor : Actor ℝ).PlanAhead stuckSim = .ok ap ∧
      0 ≤ ap.TargetAngle ∧ ap.TargetAngle < 360 ∧
      ap.TargetAngle = (Complex.arg ⟨fx, fy⟩ / Real.pi * 180 + 90) -
        360 * (⌊(Complex.arg ⟨fx, fy⟩ / Real.pi * 180 + 90) / 360⌋ : ℝ) := by
  have hne : ((0 : ℝ), (-10 : ℝ)) ≠
      ((guardedActor : Actor ℝ).PosX, (guardedActor : Actor ℝ).PosY) := by
    simp [guardedActor]
  have hrep : ∀ r ∈ (guardedActor : Actor ℝ).repulsors, ∃ q, r.GetPos stuckSim = .ok q ∧
      q ≠ ((guardedActor : Actor ℝ).PosX, (guardedActor : Actor ℝ).PosY) := by
    intro r hr
    simp only [guardedActor, List.mem_cons, List.mem_singleton, List.not_mem_nil, or_false] at hr
    rcases hr with rfl | rfl
    · exact ⟨(200, 0), rfl, by simp [guardedActor]⟩
    · exact ⟨(0, 75), rfl, by simp [guardedActor]⟩
  exact ⟨rfl, rfl, hne, hrep,
    PlanAhead_target_range stuckSim guardedActor _ (0, -10) rfl rfl hne hrep⟩

theorem stuckActor_PlanAhead (s : Sim ℝ) :
    (stuckActor : Actor ℝ).PlanAhead s = .error .zeroDistance := by
  have hs : Real.sqrt ((0 - 0) * (0 - 0) + (0 - 0) * (0 - 0)) = 0 := by
    rw [show ((0 : ℝ) - 0) * (0 - 0) + (0 - 0) * (0 - 0) = 0 by norm_num]
    exact Real.sqrt_zero
  have hforce : Actor.PlanAhead.force s (stuckActor : Actor ℝ) = .error .zeroDistance := by
    simp only [Actor.PlanAhead.force, stuckActor, Emitter.GetPos, Static.GetPos,
      Actor.ProbeAttractingField, Hypot_real, hs, if_true]
  simp only [Actor.PlanAhead, hforce]

theorem stuckSim_Tick (dt : ℝ) : (stuckSim : Sim ℝ).Tick dt = .error .zeroDistance := by
  have hr : List.range 1 = [0] := rfl
  simp only [Sim.Tick, stuckSim, List.length_singleton, hr, List.foldlM_cons,
    List.foldlM_nil, Sim.Tick.body, List.getElem?_cons_zero, stuckActor_PlanAhead]
  rfl

/-- C7 as stated fails: an actor that stands on its attractor divides by the zero
distance, so `PlanAhead` yields no target angle in `[0, 360)` (in Go, `NaN`). -/
theorem PlanAhead_target_range_counterexample :
    (stuckActor : Actor ℝ).PlanAhead stuckSim = .error .zeroDistance ∧
    ¬ ∃ ap, (stuckActor : Actor ℝ).PlanAhead stuckSim = .ok ap ∧
      0 ≤ ap.TargetAngle ∧ ap.TargetAngle < 360 := by
  refine ⟨stuckActor_PlanAhead _, ?_⟩
  rintro ⟨ap, h, -⟩
  rw [stuckActor_PlanAhead] at h
  cases h

/-- C2 as stated fails: in a simulation whose actor stands on its attractor,
`Tick(0.5)` divides by the zero distance and yields no heading within `240 * 0.5` of
the old one (in Go, the heading becomes `NaN`). -/
theorem Tick_heading_clamped_counterexample :
    (0 : ℝ) ≤ 0.5 ∧ (stuckSim : Sim ℝ).Tick 0.5 = .error .zeroDistance ∧
    ¬ ∃ s', (stuckSim : Sim ℝ).Tick 0.5 = .ok s' ∧
      ∀ (i : Nat) (a : Actor ℝ), (stuckSim : Sim ℝ).actors[i]? = some a →
        ∃ a' : Actor ℝ, s'.actors[i]? = some a' ∧ |a'.Heading - a.Heading| ≤ 240 * 0.5 := by
  refine ⟨by norm_num, stuckSim_Tick _, ?_⟩
  rintro ⟨s', h, -⟩
  rw [stuckSim_Tick] at h
  cases h

/-! ## SetWorld -/

section SetWorldLemmas

theorem foldl_append_pair {α β : Type} (f : Nat → α) (g : Nat → β) (n : Nat)
    (l1 : List α) (l2 : List β) :
    (List.range n).foldl (fun (p : List α × List β) i => (p.1 ++ [f i], p.2 ++ [g i]))
        (l1, l2) =
      (l1 ++ (List.range n).map f, l2 ++ (List.range n).map g) := by
  induction n with
  | zero => simp
  | succ n ih =>
    rw [List.range_succ, List.foldl_append, ih]
    simp [List.map_append]

theorem foldl_append_single {α β : Type} (g : β → α) (l : List β) (w : List α) :
    l.foldl (fun w p => w ++ [g p]) w = w ++ l.map g := by
  induction l generalizing w with
  | nil => simp
  | cons x l ih =>
    rw [List.foldl_cons, ih]
    simp

omit [LinearOrderedField F] in
theorem foldl_AddRepulsor_static (statics : List (Static F)) (a : Actor F) :
    statics.foldl (fun a st => a.AddRepulsor (.static st)) a =
      { a with repulsors := a.repulsors ++ statics.map Emitter.static } := by
  induction statics generalizing a with
  | nil => simp
  | cons st l ih =>
    rw [List.foldl_cons, ih]
    simp [Actor.AddRepulsor]

omit [LinearOrderedField F] in
theorem foldl_AddRepulsor_actor (i : Nat) (l : List Nat) (a : Actor F) :
    l.foldl (fun a j => if i ≠ j then a.AddRepulsor (.actor j) else a) a =
      { a with repulsors :=
          a.repulsors ++ (l.filter (fun j => decide (i ≠ j))).map Emitter.actor } := by
  induction l generalizing a with
  | nil => simp
  | cons j l ih =>
    rw [List.foldl_cons, ih]
    by_cases h : i = j
    · simp [h]
    · simp [h, Actor.AddRepulsor]

omit [LinearOrderedField F] in
theorem Sim.SetWorld.link_eq (attr : Static F) (actors : List (Actor F)) (i : Nat)
    (a : Actor F) (h : actors[i]? = some a) :
    Sim.SetWorld.link attr actors i =
      actors.set i
        { a with
          attractor := some (.static attr)
          repulsors := a.repulsors ++
            ((List.range actors.length).filter (fun j => decide (i ≠ j))).map Emitter.actor } := by
  unfold Sim.SetWorld.link
  rw [h]
  simp only [foldl_AddRepulsor_actor]
  by_cases h0 : i = 0 <;> simp [h0, Actor.SetAttractor]

omit [LinearOrderedField F] in
theorem Sim.SetWorld.link_fold (attr : Static F) (actors : List (Actor F)) :
    ∀ k, k ≤ actors.length →
      ((List.range k).foldl (Sim.SetWorld.link attr) actors).length = actors.length ∧
      ∀ i, ((List.range k).foldl (Sim.SetWorld.link attr) actors)[i]? =
        if i < k then
          (actors[i]?).map (fun a =>
            { a with
              attractor := some (.static attr)
              repulsors := a.repulsors ++
                ((List.range actors.length).filter (fun j => decide (i ≠ j))).map
                  Emitter.actor })
        else actors[i]? := by
  intro k
  induction k with
  | zero => intro _; simp
  | succ k ih =>
    intro hk
    obtain ⟨hlen, hget⟩ := ih (Nat.le_of_succ_le hk)
    have hklt : k < actors.length := hk
    have hk' : ((List.range k).foldl (Sim.SetWorld.link attr) actors)[k]? =
        some actors[k] := by
      rw [hget k, if_neg (lt_irrefl k), List.getElem?_eq_getElem hklt]
    rw [List.range_succ, List.foldl_append, List.foldl_cons, List.foldl_nil,
      Sim.SetWorld.link_eq attr _ k _ hk', hlen]
    refine ⟨by simp [hlen], ?_⟩
    intro i
    by_cases hik : i = k
    · subst hik
      have : i < ((List.range i).foldl (Sim.SetWorld.link attr) actors).length := by
        rw [hlen]; exact hklt
      rw [List.getElem?_set_self this, if_pos (Nat.lt_succ_self i),
        List.getElem?_eq_getElem hklt]
      rfl
    · have hne : k ≠ i := fun h => hik h.symm
      rw [List.getElem?_set_ne hne, hget i]
      by_cases hlt : i < k
      · rw [if_pos hlt, if_pos (Nat.lt_succ_of_lt hlt)]
      · rw [if_neg hlt, if_neg (by omega)]

end SetWorldLemmas
section SetWorldTheorems

variable [GoMath F] [FloorRing F]

omit [GoMath F] in
theorem Sim.SetWorld.newActor_repulsors (cx cy : F) (statics : List (Static F))
    (rand : Nat → Nat → Nat) (i : Nat) :
    (Sim.SetWorld.newActor cx cy statics rand i).repulsors = statics.map Emitter.static ∧
      (Sim.SetWorld.newActor cx cy statics rand i).attractor = none := by
  simp [Sim.SetWorld.newActor, foldl_AddRepulsor_static]

/-- The result of `SetWorld`, loop by loop: the notifications are those received
before, then one per ring obstacle, then one per actor of the final collection; the
final collection is that of the six new actors after the linking loop. -/
theorem Sim.SetWorld_eq (s : Sim F) (w : List (Event F)) (rand : Nat → Nat → Nat) :
    (s.SetWorld w rand).actors =
        (List.range 6).foldl (Sim.SetWorld.link ({ PosX := 500, PosY := 300 } : Static F))
          ((List.range 6).map (Sim.SetWorld.newActor (500.0 : F) 220.0
            ((List.range 100).map (Sim.SetWorld.newStatic (500.0 : F) 220.0)) rand)) ∧
      (s.SetWorld w rand).world =
        w ++ (List.range 100).map
            (fun i => Event.StaticSpawned (Sim.SetWorld.newStatic (500.0 : F) 220.0 i)) ++
          (s.SetWorld w rand).actors.enum.map (fun p => Event.ActorSpawned p.1 p.2) := by
  have h1 := foldl_append_pair (Sim.SetWorld.newStatic (500.0 : F) 220.0)
    (fun i => Event.StaticSpawned (Sim.SetWorld.newStatic (500.0 : F) 220.0 i)) 100 [] w
  have h2 : ∀ statics : List (Static F),
      (List.range 6).foldl
        (fun actors i => actors ++ [Sim.SetWorld.newActor (500.0 : F) 220.0 statics rand i]) [] =
      (List.range 6).map (Sim.SetWorld.newActor (500.0 : F) 220.0 statics rand) := by
    intro statics
    rw [foldl_append_single]
    simp
  simp only [Sim.SetWorld, h1, h2, foldl_append_single, List.length_map, List.length_range,
    List.nil_append, and_self]

/-- The actor at index `i` after `SetWorld`. -/
theorem Sim.SetWorld_actor (s : Sim F) (w : List (Event F)) (rand : Nat → Nat → Nat)
    (i : Nat) (hi : i < 6) :
    (s.SetWorld w rand).actors.length = 6 ∧
    ∃ a, (s.SetWorld w rand).actors[i]? = some a ∧
      a.attractor = some (.static { PosX := 500, PosY := 300 }) ∧
      a.repulsors =
        (List.range 100).map (fun k => Emitter.static (Sim.SetWorld.newStatic (500.0 : F) 220.0 k)) ++
          ((List.range 6).filter (fun j => decide (i ≠ j))).map Emitter.actor := by
  have hlen6 : ((List.range 6).map (Sim.SetWorld.newActor (500.0 : F) 220.0
      ((List.range 100).map (Sim.SetWorld.newStatic (500.0 : F) 220.0)) rand)).length = 6 := by
    simp
  obtain ⟨hlen, hget⟩ := Sim.SetWorld.link_fold ({ PosX := 500, PosY := 300 } : Static F)
    ((List.range 6).map (Sim.SetWorld.newActor (500.0 : F) 220.0
      ((List.range 100).map (Sim.SetWorld.newStatic (500.0 : F) 220.0)) rand)) 6 (by rw [hlen6])
  rw [(Sim.SetWorld_eq s w rand).1]
  refine ⟨by rw [hlen, hlen6], ?_⟩
  rw [hget i, if_pos hi, hlen6, List.getElem?_map, List.getElem?_range hi]
  refine ⟨_, rfl, rfl, ?_⟩
  simp only [(Sim.SetWorld.newActor_repulsors _ _ _ _ _).1, List.map_map]
  rfl

end SetWorldTheorems
theorem range_six_filter_length (i : Fin 6) :
    ((List.range 6).filter (fun j => decide (i.val ≠ j))).length = 5 := by
  fin_cases i <;> rfl

section SetWorldClaims

variable [GoMath F] [FloorRing F]

/-- C8: whatever the random draws, `SetWorld` sends the world exactly 100
`StaticSpawned` notifications, one per ring obstacle in ring order, followed by exactly
6 `ActorSpawned` notifications, one per actor in collection order; each actor is
passed as it is at the end of `SetWorld`, with its attractor set and its 105 repulsors
linked. -/
theorem SetWorld_notifications (s : Sim F) (w : List (Event F)) (rand : Nat → Nat → Nat) :
    (s.SetWorld w rand).world =
        w ++ (List.range 100).map
            (fun i => Event.StaticSpawned (Sim.SetWorld.newStatic (500.0 : F) 220.0 i)) ++
          (s.SetWorld w rand).actors.enum.map (fun p => Event.ActorSpawned p.1 p.2) ∧
      ((List.range 100).map
        (fun i => Event.StaticSpawned (Sim.SetWorld.newStatic (500.0 : F) 220.0 i))).length
          = 100 ∧
      ((s.SetWorld w rand).actors.enum.map (fun p => Event.ActorSpawned p.1 p.2)).length = 6 ∧
      ∀ i : Fin 6, ∃ a,
        ((s.SetWorld w rand).actors.enum.map (fun p => Event.ActorSpawned p.1 p.2))[i.val]? =
          some (Event.ActorSpawned i.val a) ∧
        (s.SetWorld w rand).actors[i.val]? = some a ∧
        a.attractor ≠ none ∧ a.repulsors.length = 105 := by
  refine ⟨(Sim.SetWorld_eq s w rand).2, by simp, ?_, ?_⟩
  · simp [(Sim.SetWorld_actor s w rand 0 (by norm_num)).1]
  · intro i
    obtain ⟨-, a, ha, hatt, hrep⟩ := Sim.SetWorld_actor s w rand i.val i.isLt
    refine ⟨a, ?_, ha, by rw [hatt]; simp, ?_⟩
    · simp [List.getElem?_map, List.getElem?_enum, ha]
    · rw [hrep, List.length_append, List.length_map, List.length_map, List.length_range,
        range_six_filter_length]

/-- C9: after `SetWorld` the repulsor list of the actor at index `i` is the 100 ring
obstacles in ring order followed by the 5 other actors in collection order, 105
entries in all, and the actor itself is not among them. -/
theorem SetWorld_repulsors (s : Sim F) (w : List (Event F)) (rand : Nat → Nat → Nat)
    (i : Fin 6) :
    ∃ a, (s.SetWorld w rand).actors[i.val]? = some a ∧
      a.repulsors =
        (List.range 100).map
            (fun k => Emitter.static (Sim.SetWorld.newStatic (500.0 : F) 220.0 k)) ++
          ((List.range 6).filter (fun j => decide (i.val ≠ j))).map Emitter.actor ∧
      a.repulsors.length = 105 ∧
      ((List.range 6).filter (fun j => decide (i.val ≠ j))).length = 5 ∧
      Emitter.actor i.val ∉ a.repulsors := by
  obtain ⟨-, a, ha, -, hrep⟩ := Sim.SetWorld_actor s w rand i.val i.isLt
  refine ⟨a, ha, hrep, ?_, range_six_filter_length i, ?_⟩
  · rw [hrep, List.length_append, List.length_map, List.length_map, List.length_range,
      range_six_filter_length]
  · rw [hrep]
    simp

/-- C10: after `SetWorld` the attractor of each of the 6 actors is the fixed point
`(500, 300)` and not the preceding actor of the cyclic chain (the last actor for
index 0). -/
theorem SetWorld_attractor (s : Sim F) (w : List (Event F)) (rand : Nat → Nat → Nat)
    (i : Fin 6) :
    (s.SetWorld w rand).actors.length = 6 ∧
    ∃ a, (s.SetWorld w rand).actors[i.val]? = some a ∧
      a.attractor = some (.static { PosX := 500, PosY := 300 }) ∧
      a.attractor ≠ some (.actor (if i.val = 0 then 6 - 1 else i.val - 1)) := by
  obtain ⟨hlen, a, ha, hatt, -⟩ := Sim.SetWorld_actor s w rand i.val i.isLt
  refine ⟨hlen, a, ha, hatt, ?_⟩
  rw [hatt]
  simp

end SetWorldClaims

/-! ## A zero distance right after SetWorld -/

section SetWorldPosition

variable [GoMath F] [FloorRing F]

omit [GoMath F] in
theorem Sim.SetWorld.newActor_pos (cx cy : F) (statics : List (Static F))
    (rand : Nat → Nat → Nat) (i : Nat) :
    (Sim.SetWorld.newActor cx cy statics rand i).PosX =
        ((rand (3 * i) ⌊cx * 2 + 1⌋₊ : Nat) : F) ∧
      (Sim.SetWorld.newActor cx cy statics rand i).PosY =
        ((rand (3 * i + 1) ⌊cy * 2 + 1⌋₊ : Nat) : F) := by
  simp [Sim.SetWorld.newActor, foldl_AddRepulsor_static]

/-- The position and the attractor of the actor at index `i` after `SetWorld`. -/
theorem Sim.SetWorld_actor_pos (s : Sim F) (w : List (Event F)) (rand : Nat → Nat → Nat)
    (i : Nat) (hi : i < 6) :
    ∃ a, (s.SetWorld w rand).actors[i]? = some a ∧
      a.attractor = some (.static { PosX := 500, PosY := 300 }) ∧
      a.PosX = ((rand (3 * i) ⌊(500.0 : F) * 2 + 1⌋₊ : Nat) : F) ∧
      a.PosY = ((rand (3 * i + 1) ⌊(220.0 : F) * 2 + 1⌋₊ : Nat) : F) := by
  have hlen6 : ((List.range 6).map (Sim.SetWorld.newActor (500.0 : F) 220.0
      ((List.range 100).map (Sim.SetWorld.newStatic (500.0 : F) 220.0)) rand)).length = 6 := by
    simp
  obtain ⟨-, hget⟩ := Sim.SetWorld.link_fold ({ PosX := 500, PosY := 300 } : Static F)
    ((List.range 6).map (Sim.SetWorld.newActor (500.0 : F) 220.0
      ((List.range 100).map (Sim.SetWorld.newStatic (500.0 : F) 220.0)) rand)) 6 (by rw [hlen6])
  rw [(Sim.SetWorld_eq s w rand).1, hget i, if_pos hi, hlen6, List.getElem?_map,
    List.getElem?_range hi]
  have hpos := Sim.SetWorld.newActor_pos (500.0 : F) 220.0
    ((List.range 100).map (Sim.SetWorld.newStatic (500.0 : F) 220.0)) rand i
  simp only [Option.map_some']
  refine ⟨_, rfl, ?_⟩
  simp only [true_and]
  exact hpos

end SetWorldPosition

/-- A state that `SetWorld` itself produces and on which `Tick` divides by a zero
distance: with the draws `centreDraws` the first actor is created at `(500, 300)`,
the position of the attractor of all actors. -/
theorem SetWorld_Tick_zeroDistance (s : Sim ℝ) (w : List (Event ℝ)) (dt : ℝ) :
    (s.SetWorld w centreDraws).Tick dt = .error .zeroDistance := by
  obtain ⟨a, ha, hatt, hx, hy⟩ := Sim.SetWorld_actor_pos s w centreDraws 0 (by norm_num)
  have hx' : a.PosX = 500 := by rw [hx]; simp [centreDraws]
  have hy' : a.PosY = 300 := by rw [hy]; simp [centreDraws]
  have hs : Real.sqrt ((500 - a.PosX) * (500 - a.PosX) + (300 - a.PosY) * (300 - a.PosY)) = 0 := by
    rw [hx', hy']
    norm_num
  have hforce : Actor.PlanAhead.force (s.SetWorld w centreDraws) a = .error .zeroDistance := by
    simp only [Actor.PlanAhead.force, hatt, Emitter.GetPos, Static.GetPos,
      Actor.ProbeAttractingField, Hypot_real, hs, if_true]
  have hplan : a.PlanAhead (s.SetWorld w centreDraws) = .error .zeroDistance := by
    simp only [Actor.PlanAhead, hforce]
  have hbody : ∀ mv : ℝ, Sim.Tick.body dt mv (s.SetWorld w centreDraws) 0 =
      .error .zeroDistance := by
    intro mv
    simp only [Sim.Tick.body, ha, hplan]
  have hr : List.range 6 = 0 :: [1, 2, 3, 4, 5] := rfl
  simp only [Sim.Tick, (Sim.SetWorld_actor s w centreDraws 0 (by norm_num)).1, hr,
    List.foldlM_cons, hbody]
  rfl

/-- C3 as stated fails, on a state that the program itself produces: when `SetWorld`
draws the position `(500, 300)` for the first actor, that actor stands on its
attractor, `Tick(1)` divides by the zero distance and yields no position 180 units
from the old one (in Go, heading and position become `NaN`). -/
theorem Tick_displacement_counterexample :
    ((newSim : Sim ℝ).SetWorld [] centreDraws).Tick 1 = .error .zeroDistance ∧
    ¬ ∃ s', ((newSim : Sim ℝ).SetWorld [] centreDraws).Tick 1 = .ok s' ∧
      ∀ (i : Nat) (a : Actor ℝ),
        ((newSim : Sim ℝ).SetWorld [] centreDraws).actors[i]? = some a →
        ∃ a' : Actor ℝ, s'.actors[i]? = some a' ∧
          Real.sqrt ((a'.PosX - a.PosX) ^ 2 + (a'.PosY - a.PosY) ^ 2) = 180 * |(1 : ℝ)| := by
  refine ⟨SetWorld_Tick_zeroDistance _ _ _, ?_⟩
  rintro ⟨s', h, -⟩
  rw [SetWorld_Tick_zeroDistance] at h
  cases h

/-! ## The ring of obstacles -/

/-- C11: for every ring index `i` in `0..99`, the `i`-th obstacle that `SetWorld`
creates and reports sits at `(500 + R sin θ, 220 + R cos θ)` with
`R = sqrt(500^2 + 220^2)` and `θ = 2 π i / 100`; its distance from the ring centre
`(500, 220)` is exactly `R`, and the angles of consecutive obstacles differ by
`2 π / 100`. -/
theorem SetWorld_ring (s : Sim ℝ) (w : List (Event ℝ)) (rand : Nat → Nat → Nat)
    (i : Fin 100) :
    (s.SetWorld w rand).world[w.length + i.val]? =
        some (Event.StaticSpawned (Sim.SetWorld.newStatic (500.0 : ℝ) 220.0 i.val)) ∧
      (Sim.SetWorld.newStatic (500.0 : ℝ) 220.0 i.val).PosX =
        500 + Real.sqrt (500 ^ 2 + 220 ^ 2) * Real.sin (2 * Real.pi * i.val / 100) ∧
      (Sim.SetWorld.newStatic (500.0 : ℝ) 220.0 i.val).PosY =
        220 + Real.sqrt (500 ^ 2 + 220 ^ 2) * Real.cos (2 * Real.pi * i.val / 100) ∧
      Real.sqrt (((Sim.SetWorld.newStatic (500.0 : ℝ) 220.0 i.val).PosX - 500) ^ 2 +
          ((Sim.SetWorld.newStatic (500.0 : ℝ) 220.0 i.val).PosY - 220) ^ 2) =
        Real.sqrt (500 ^ 2 + 220 ^ 2) ∧
      2 * Real.pi * ((i.val + 1 : Nat) : ℝ) / 100 - 2 * Real.pi * (i.val : ℝ) / 100 =
        2 * Real.pi / 100 := by
  have hR : GoMath.Hypot (500.0 : ℝ) 220.0 = Real.sqrt (500 ^ 2 + 220 ^ 2) := by
    rw [Hypot_real]
    norm_num
  have hang : (GoMath.Pi : ℝ) * 2.0 / ((100 : Nat) : ℝ) * (i.val : ℝ) =
      2 * Real.pi * i.val / 100 := by
    rw [Pi_real]
    norm_num
    ring
  have hx : (Sim.SetWorld.newStatic (500.0 : ℝ) 220.0 i.val).PosX =
      500 + Real.sqrt (500 ^ 2 + 220 ^ 2) * Real.sin (2 * Real.pi * i.val / 100) := by
    simp only [Sim.SetWorld.newStatic, hR, hang, Sin_real]
    norm_num
  have hy : (Sim.SetWorld.newStatic (500.0 : ℝ) 220.0 i.val).PosY =
      220 + Real.sqrt (500 ^ 2 + 220 ^ 2) * Real.cos (2 * Real.pi * i.val / 100) := by
    simp only [Sim.SetWorld.newStatic, hR, hang, Cos_real]
    norm_num
  refine ⟨?_, hx, hy, ?_, ?_⟩
  · rw [(Sim.SetWorld_eq s w rand).2, List.append_assoc,
      List.getElem?_append_right (Nat.le_add_right _ _), Nat.add_sub_cancel_left,
      List.getElem?_append_left (by simp), List.getElem?_map,
      List.getElem?_range i.isLt]
    rfl
  · rw [hx, hy, add_sub_cancel_left, add_sub_cancel_left]
    have hsc := Real.sin_sq_add_cos_sq (2 * Real.pi * i.val / 100)
    have hsq : (Real.sqrt (500 ^ 2 + 220 ^ 2) * Real.sin (2 * Real.pi * i.val / 100)) ^ 2 +
        (Real.sqrt (500 ^ 2 + 220 ^ 2) * Real.cos (2 * Real.pi * i.val / 100)) ^ 2 =
        Real.sqrt (500 ^ 2 + 220 ^ 2) ^ 2 := by
      linear_combination (Real.sqrt (500 ^ 2 + 220 ^ 2)) ^ 2 * hsc
    rw [hsq]
    exact Real.sqrt_sq (Real.sqrt_nonneg _)
  · push_cast
    ring

/-! ## Tick: what it leaves alone -/

section FrameLemmas

variable [GoMath F] [FloorRing F]

theorem Sim.Tick.advance_attractor (dt mv : F) (a : Actor F) :
    (Sim.Tick.advance dt mv a).attractor = a.attractor := rfl

theorem Sim.Tick.advance_repulsors (dt mv : F) (a : Actor F) :
    (Sim.Tick.advance dt mv a).repulsors = a.repulsors := rfl

/-- After any number of iterations of the loop of `Tick`, every actor still has the
attractor and the repulsors it had. -/
theorem Sim.Tick.fold_frame {dt mv : F} (s sk : Sim F) (k : Nat) (hk : k ≤ s.actors.length)
    (h : (List.range k).foldlM (Sim.Tick.body dt mv) s = .ok sk) :
    sk.actors.length = s.actors.length ∧ sk.world = s.world ∧
      ∀ (i : Nat) (a : Actor F), s.actors[i]? = some a →
        ∃ a' : Actor F, sk.actors[i]? = some a' ∧ a'.attractor = a.attractor ∧
          a'.repulsors = a.repulsors := by
  obtain ⟨hlen, hw, hge, hlt⟩ := Sim.Tick.fold_inv s k sk hk h
  refine ⟨hlen, hw, ?_⟩
  intro i a hi
  by_cases hik : i < k
  · obtain ⟨sm, ap, -, -, -, hplan, hsk, -, -⟩ := hlt i a hik hi
    obtain ⟨-, -, -, hatt, hrep⟩ := Actor.PlanAhead_frame hplan
    exact ⟨_, hsk, hatt, hrep⟩
  · exact ⟨a, by rw [hge i (not_lt.mp hik)]; exact hi, rfl, rfl⟩

end FrameLemmas

/-! ## Tick under any arithmetic: what it leaves alone -/

/-- The links of an actor after `PlanAhead` in any arithmetic are those it had. -/
theorem Arith.PlanAhead_links {V : Type} (o : Arith V) (fuel : Nat) (s : Sim V)
    (a ap : Actor V) (h : o.PlanAhead fuel s a = .ok ap) :
    ap = { a with TargetAngle := ap.TargetAngle } := by
  unfold Arith.PlanAhead at h
  rcases ha : a.attractor with _ | e
  · rw [ha] at h
    cases h
  · rw [ha] at h
    dsimp only at h
    rcases hg : Arith.GetPos s e with _ | ⟨ax, ay⟩
    · rw [hg] at h
      cases h
    · rw [hg] at h
      dsimp only at h
      rcases hf : a.repulsors.foldlM (Arith.PlanAhead.addRepulsion o s a)
          (o.ProbeAttractingField a ax ay) with stop | ⟨fx, fy⟩
      · rw [hf] at h
        cases h
      · rw [hf] at h
        dsimp only at h
        rcases hl : Arith.PlanAhead.loop o fuel
            (o.add (o.mul (o.div (o.Atan2 fy fx) o.Pi) (o.lit 180)) (o.lit 90)) with _ | d
        · rw [hl] at h
          cases h
        · rw [hl] at h
          cases h
          rfl

/-- Writing at index `k` an actor with the links of the one that is there keeps the
links of every actor. -/
theorem Arith.Tick.set_links {V : Type} (s sk : Sim V) (k : Nat) (a a2 : Actor V)
    (hinv : sk.actors.length = s.actors.length ∧ sk.world = s.world ∧
      ∀ (i : Nat) (b : Actor V), s.actors[i]? = some b →
        ∃ b' : Actor V, sk.actors[i]? = some b' ∧ b'.attractor = b.attractor ∧
          b'.repulsors = b.repulsors)
    (hk : sk.actors[k]? = some a) (hatt : a2.attractor = a.attractor)
    (hrep : a2.repulsors = a.repulsors) :
    ({ sk with actors := sk.actors.set k a2 } : Sim V).actors.length = s.actors.length ∧
      ({ sk with actors := sk.actors.set k a2 } : Sim V).world = s.world ∧
      ∀ (i : Nat) (b : Actor V), s.actors[i]? = some b →
        ∃ b' : Actor V, ({ sk with actors := sk.actors.set k a2 } : Sim V).actors[i]? = some b' ∧
          b'.attractor = b.attractor ∧ b'.repulsors = b.repulsors := by
  obtain ⟨hlen, hw, hfr⟩ := hinv
  refine ⟨by simp only [List.length_set]; exact hlen, hw, ?_⟩
  intro i b hb
  obtain ⟨b', hb', h1, h2⟩ := hfr i b hb
  by_cases hik : k = i
  · subst hik
    rw [hk] at hb'
    cases hb'
    have hlt : k < sk.actors.length := by
      rcases Nat.lt_or_ge k sk.actors.length with h | h
      · exact h
      · rw [List.getElem?_eq_none h] at hk
        cases hk
    refine ⟨a2, ?_, hatt.trans h1, hrep.trans h2⟩
    simp only [List.getElem?_set_self hlt]
  · refine ⟨b', ?_, h1, h2⟩
    simp only [List.getElem?_set_ne hik]
    exact hb'

/-- One iteration of the loop of `Tick`, in any arithmetic and however it ends, keeps
the links of every actor. -/
theorem Arith.Tick.body_links {V : Type} (o : Arith V) (fuel : Nat) (dt mv : V)
    (s : Sim V) (st : Sim V × Option Stop) (k : Nat)
    (hinv : st.1.actors.length = s.actors.length ∧ st.1.world = s.world ∧
      ∀ (i : Nat) (b : Actor V), s.actors[i]? = some b →
        ∃ b' : Actor V, st.1.actors[i]? = some b' ∧ b'.attractor = b.attractor ∧
          b'.repulsors = b.repulsors) :
    (Arith.Tick.body o fuel dt mv st k).1.actors.length = s.actors.length ∧
      (Arith.Tick.body o fuel dt mv st k).1.world = s.world ∧
      ∀ (i : Nat) (b : Actor V), s.actors[i]? = some b →
        ∃ b' : Actor V, (Arith.Tick.body o fuel dt mv st k).1.actors[i]? = some b' ∧
          b'.attractor = b.attractor ∧ b'.repulsors = b.repulsors := by
  unfold Arith.Tick.body
  rcases h2 : st.2 with _ | stop
  · dsimp only
    rcases hk : st.1.actors[k]? with _ | a
    · exact hinv
    · dsimp only
      rcases hp : o.PlanAhead fuel st.1 a with stop | ap
      · exact hinv
      · dsimp only
        have hap := Arith.PlanAhead_links o fuel st.1 a ap hp
        have hatt : ap.attractor = a.attractor := by rw [hap]
        have hrep : ap.repulsors = a.repulsors := by rw [hap]
        rcases ha : o.angleBetweenAngles fuel ap.Heading ap.TargetAngle with _ | aba
        · exact Arith.Tick.set_links s st.1 k a ap hinv hk hatt hrep
        · exact Arith.Tick.set_links s st.1 k a _ hinv hk hatt hrep
  · exact hinv

/-- Any number of iterations of the loop of `Tick`, in any arithmetic, keep the
links of every actor. -/
theorem Arith.Tick.fold_links {V : Type} (o : Arith V) (fuel : Nat) (dt mv : V)
    (s : Sim V) (l : List Nat) :
    ∀ st : Sim V × Option Stop,
      (st.1.actors.length = s.actors.length ∧ st.1.world = s.world ∧
        ∀ (i : Nat) (b : Actor V), s.actors[i]? = some b →
          ∃ b' : Actor V, st.1.actors[i]? = some b' ∧ b'.attractor = b.attractor ∧
            b'.repulsors = b.repulsors) →
      (l.foldl (Arith.Tick.body o fuel dt mv) st).1.actors.length = s.actors.length ∧
        (l.foldl (Arith.Tick.body o fuel dt mv) st).1.world = s.world ∧
        ∀ (i : Nat) (b : Actor V), s.actors[i]? = some b →
          ∃ b' : Actor V, (l.foldl (Arith.Tick.body o fuel dt mv) st).1.actors[i]? = some b' ∧
            b'.attractor = b.attractor ∧ b'.repulsors = b.repulsors := by
  induction l with
  | nil => intro st h; exact h
  | cons k l ih =>
    intro st h
    rw [List.foldl_cons]
    exact ih _ (Arith.Tick.body_links o fuel dt mv s st k h)

/-! ## Tick under the arithmetic of an ordered field -/

section OfField

variable [GoMath F]

omit [LinearOrderedField F] [GoMath F] in
theorem ofField_GetPos (s : Sim F) (r : Emitter F) (p : F × F)
    (h : r.GetPos s = .ok p) : Arith.GetPos s r = some p := by
  cases r with
  | static st =>
    simp only [Emitter.GetPos, Static.GetPos] at h
    cases h
    rfl
  | actor idx =>
    simp only [Emitter.GetPos] at h
    simp only [Arith.GetPos]
    rcases hb : s.actors[idx]? with _ | b
    · rw [hb] at h
      cases h
    · rw [hb] at h
      simp only [Actor.GetPos] at h
      cases h
      rfl

theorem ofField_ProbeRepulsingField (a : Actor F) (x y : F) (f : F × F)
    (h : a.ProbeRepulsingField x y = .ok f) :
    Arith.ofField.ProbeRepulsingField a x y = f := by
  simp only [Actor.ProbeRepulsingField] at h
  simp only [Arith.ProbeRepulsingField, Arith.ofField]
  by_cases h1 : GoMath.Hypot (a.PosX - x) (a.PosY - y) > 150
  · rw [if_pos h1] at h
    cases h
    have : GoMath.Hypot (a.PosX - x) (a.PosY - y) > ((150 : ℚ) : F) := by
      simpa using h1
    simp only [decide_eq_true this, if_true]
    simp
  · rw [if_neg h1] at h
    by_cases h2 : GoMath.Hypot (a.PosX - x) (a.PosY - y) = 0
    · rw [if_pos h2] at h
      cases h
    · rw [if_neg h2] at h
      cases h
      have : ¬ GoMath.Hypot (a.PosX - x) (a.PosY - y) > ((150 : ℚ) : F) := by
        simpa using h1
      simp only [decide_eq_false this]
      norm_num

theorem ofField_ProbeAttractingField (a : Actor F) (x y : F) (f : F × F)
    (h : a.ProbeAttractingField x y = .ok f) :
    Arith.ofField.ProbeAttractingField a x y = f := by
  simp only [Actor.ProbeAttractingField] at h
  simp only [Arith.ProbeAttractingField, Arith.ofField]
  by_cases h2 : GoMath.Hypot (x - a.PosX) (y - a.PosY) = 0
  · rw [if_pos h2] at h
    cases h
  · rw [if_neg h2] at h
    cases h
    norm_num

theorem ofField_addRepulsion (s : Sim F) (a : Actor F) (f f' : F × F)
    (r : Emitter F) (h : Actor.PlanAhead.addRepulsion s a f r = .ok f') :
    Arith.PlanAhead.addRepulsion Arith.ofField s a f r = .ok f' := by
  unfold Actor.PlanAhead.addRepulsion at h
  unfold Arith.PlanAhead.addRepulsion
  rcases hg : r.GetPos s with e | ⟨rx, ry⟩
  · rw [hg] at h
    cases h
  · rw [hg] at h
    dsimp only at h
    rw [ofField_GetPos s r _ hg]
    dsimp only
    rcases hp : a.ProbeRepulsingField rx ry with e | ⟨rfx, rfy⟩
    · rw [hp] at h
      cases h
    · rw [hp] at h
      dsimp only at h
      cases h
      rw [ofField_ProbeRepulsingField a rx ry _ hp]
      rfl

theorem ofField_foldlM (s : Sim F) (a : Actor F) (l : List (Emitter F)) :
    ∀ f f' : F × F, l.foldlM (Actor.PlanAhead.addRepulsion s a) f = .ok f' →
      l.foldlM (Arith.PlanAhead.addRepulsion Arith.ofField s a) f = .ok f' := by
  induction l with
  | nil =>
    intro f f' h
    simp only [List.foldlM_nil] at h ⊢
    cases h
    rfl
  | cons r l ih =>
    intro f f' h
    rw [List.foldlM_cons] at h
    rw [List.foldlM_cons]
    rcases h1 : Actor.PlanAhead.addRepulsion s a f r with e | g
    · rw [h1] at h
      cases h
    · rw [h1] at h
      rw [ofField_addRepulsion s a f g r h1]
      exact ih g f' h

variable [FloorRing F]

theorem ofField_angleBetweenAngles_loop (n : Nat) :
    ∀ (res : F), res ≤ 360 * ((n : F) + 1) → ∀ fuel : Nat, n ≤ fuel →
      Arith.angleBetweenAngles.loop Arith.ofField fuel res =
        some (angleBetweenAngles.loop res) := by
  induction n with
  | zero =>
    intro res hres fuel _
    have hle : res ≤ 360 := by simpa using hres
    have hng : ¬ res > ((360 : ℚ) : F) := by simpa using hle
    rw [angleBetweenAngles.loop_of_le hle]
    cases fuel with
    | zero => simp only [Arith.angleBetweenAngles.loop, Arith.ofField, decide_eq_false hng]; rfl
    | succ m => simp only [Arith.angleBetweenAngles.loop, Arith.ofField, decide_eq_false hng]; rfl
  | succ n ih =>
    intro res hres fuel hfuel
    by_cases hle : res ≤ 360
    · have hng : ¬ res > ((360 : ℚ) : F) := by simpa using hle
      rw [angleBetweenAngles.loop_of_le hle]
      cases fuel with
      | zero => simp only [Arith.angleBetweenAngles.loop, Arith.ofField, decide_eq_false hng]; rfl
      | succ m => simp only [Arith.angleBetweenAngles.loop, Arith.ofField, decide_eq_false hng]; rfl
    · have hgt : 360 < res := not_le.mp hle
      have hg : res > ((360 : ℚ) : F) := by simpa using hgt
      cases fuel with
      | zero => omega
      | succ m =>
        have hrec := ih (res - 360) (by push_cast at hres; linarith) m (by omega)
        rw [angleBetweenAngles.loop_of_gt hgt, ← hrec]
        simp only [Arith.angleBetweenAngles.loop, Arith.ofField, decide_eq_true hg, if_true]
        norm_num

theorem ofField_PlanAhead_loop (n : Nat) :
    ∀ (d : F), -(360 * (n : F)) ≤ d → ∀ fuel : Nat, n ≤ fuel →
      Arith.PlanAhead.loop Arith.ofField fuel d = some (Actor.PlanAhead.loop d) := by
  induction n with
  | zero =>
    intro d hd fuel _
    have hle : 0 ≤ d := by simpa using hd
    have hng : ¬ d < ((0 : ℚ) : F) := by simpa using hle
    rw [Actor.PlanAhead.loop_of_nonneg hle]
    cases fuel with
    | zero => simp only [Arith.PlanAhead.loop, Arith.ofField, decide_eq_false hng]; rfl
    | succ m => simp only [Arith.PlanAhead.loop, Arith.ofField, decide_eq_false hng]; rfl
  | succ n ih =>
    intro d hd fuel hfuel
    by_cases hle : 0 ≤ d
    · have hng : ¬ d < ((0 : ℚ) : F) := by simpa using hle
      rw [Actor.PlanAhead.loop_of_nonneg hle]
      cases fuel with
      | zero => simp only [Arith.PlanAhead.loop, Arith.ofField, decide_eq_false hng]; rfl
      | succ m => simp only [Arith.PlanAhead.loop, Arith.ofField, decide_eq_false hng]; rfl
    · have hlt : d < 0 := not_le.mp hle
      have hg : d < ((0 : ℚ) : F) := by simpa using hlt
      cases fuel with
      | zero => omega
      | succ m =>
        have hrec := ih (d + 360) (by push_cast at hd; linarith) m (by omega)
        rw [Actor.PlanAhead.loop_of_neg hlt, ← hrec]
        simp only [Arith.PlanAhead.loop, Arith.ofField, decide_eq_true hg, if_true]
        norm_num

/-- With enough steps allowed, `angleBetweenAngles` in the arithmetic of the field
returns what `angleBetweenAngles` is. -/
theorem ofField_angleBetweenAngles (a1 a2 : F) :
    ∃ N : Nat, ∀ fuel : Nat, N ≤ fuel →
      Arith.ofField.angleBetweenAngles fuel a1 a2 = some (angleBetweenAngles a1 a2) := by
  refine ⟨⌈(a2 - a1 + 180) / 360⌉₊, ?_⟩
  intro fuel hfuel
  have hb : a2 - a1 + 180 ≤ 360 * ((⌈(a2 - a1 + 180) / 360⌉₊ : F) + 1) := by
    have h1 := Nat.le_ceil ((a2 - a1 + 180) / 360)
    rw [div_le_iff₀ (by norm_num)] at h1
    linarith
  have h := ofField_angleBetweenAngles_loop _ _ hb fuel hfuel
  have hl : Arith.angleBetweenAngles.loop Arith.ofField fuel
      (Arith.ofField.add (Arith.ofField.sub a2 a1) (Arith.ofField.lit 180)) =
      some (angleBetweenAngles.loop (a2 - a1 + 180)) := by
    rw [← h]
    simp only [Arith.ofField]
    norm_num
  simp only [Arith.angleBetweenAngles, hl, angleBetweenAngles]
  simp only [Arith.ofField]
  norm_num

/-- With enough steps allowed, `PlanAhead` in the arithmetic of the field returns
what `PlanAhead` returns, when that is an actor. -/
theorem ofField_PlanAhead (s : Sim F) (a ap : Actor F) (h : a.PlanAhead s = .ok ap) :
    ∃ N : Nat, ∀ fuel : Nat, N ≤ fuel → Arith.ofField.PlanAhead fuel s a = .ok ap := by
  unfold Actor.PlanAhead at h
  rcases hf : Actor.PlanAhead.force s a with e | ⟨fx, fy⟩
  · rw [hf] at h
    cases h
  · rw [hf] at h
    dsimp only at h
    cases h
    unfold Actor.PlanAhead.force at hf
    rcases hatt : a.attractor with _ | e
    · rw [hatt] at hf
      cases hf
    · rw [hatt] at hf
      dsimp only at hf
      rcases hg : e.GetPos s with err | ⟨ax, ay⟩
      · rw [hg] at hf
        cases hf
      · rw [hg] at hf
        dsimp only at hf
        rcases hp : a.ProbeAttractingField ax ay with err | f
        · rw [hp] at hf
          cases hf
        · rw [hp] at hf
          dsimp only at hf
          refine ⟨⌈-(GoMath.Atan2 fy fx / GoMath.Pi * 180 + 90) / 360⌉₊, ?_⟩
          intro fuel hfuel
          have hb : -(360 * ((⌈-(GoMath.Atan2 fy fx / GoMath.Pi * 180 + 90) / 360⌉₊ : Nat) : F))
              ≤ GoMath.Atan2 fy fx / GoMath.Pi * 180 + 90 := by
            have h1 := Nat.le_ceil (-(GoMath.Atan2 fy fx / GoMath.Pi * 180 + 90) / 360)
            rw [div_le_iff₀ (by norm_num)] at h1
            linarith
          have hl := ofField_PlanAhead_loop _ _ hb fuel hfuel
          have hl2 : Arith.PlanAhead.loop Arith.ofField fuel
              (Arith.ofField.add (Arith.ofField.mul (Arith.ofField.div
                (Arith.ofField.Atan2 fy fx) Arith.ofField.Pi) (Arith.ofField.lit 180))
                (Arith.ofField.lit 90)) =
              some (Actor.PlanAhead.loop (GoMath.Atan2 fy fx / GoMath.Pi * 180 + 90)) := by
            rw [← hl]
            simp only [Arith.ofField]
            norm_num
          unfold Arith.PlanAhead
          rw [hatt]
          dsimp only
          rw [ofField_GetPos s e _ hg]
          dsimp only
          rw [ofField_ProbeAttractingField a ax ay f hp,
            ofField_foldlM s a a.repulsors f (fx, fy) hf]
          dsimp only
          rw [hl2]

/-- With enough steps allowed, one iteration of the loop of `Tick` in the arithmetic
of the field leaves the state that `Sim.Tick.body` returns, when it returns one. -/
theorem ofField_Tick_body (dt mv : F) (s s1 : Sim F) (i : Nat)
    (h : Sim.Tick.body dt mv s i = .ok s1) :
    ∃ N : Nat, ∀ fuel : Nat, N ≤ fuel →
      Arith.Tick.body Arith.ofField fuel dt mv (s, none) i = (s1, none) := by
  unfold Sim.Tick.body at h
  rcases ha : s.actors[i]? with _ | a
  · rw [ha] at h
    cases h
    refine ⟨0, fun fuel _ => ?_⟩
    simp only [Arith.Tick.body, ha]
  · rw [ha] at h
    dsimp only at h
    rcases hp : a.PlanAhead s with e | ap
    · rw [hp] at h
      cases h
    · rw [hp] at h
      dsimp only at h
      cases h
      obtain ⟨N1, h1⟩ := ofField_PlanAhead s a ap hp
      obtain ⟨N2, h2⟩ := ofField_angleBetweenAngles ap.Heading ap.TargetAngle
      refine ⟨max N1 N2, fun fuel hfuel => ?_⟩
      have hf1 := h1 fuel (le_trans (le_max_left _ _) hfuel)
      have hf2 := h2 fuel (le_trans (le_max_right _ _) hfuel)
      simp only [Arith.Tick.body, ha, hf1, hf2, Sim.Tick.advance]
      simp only [Arith.ofField, decide_eq_true_eq]
      norm_num

/-- With enough steps allowed, the loop of `Tick` in the arithmetic of the field
leaves the state that the loop of `Sim.Tick` returns, when it returns one. -/
theorem ofField_Tick_fold (dt mv : F) (l : List Nat) :
    ∀ s s1 : Sim F, l.foldlM (Sim.Tick.body dt mv) s = .ok s1 →
      ∃ N : Nat, ∀ fuel : Nat, N ≤ fuel →
        l.foldl (Arith.Tick.body Arith.ofField fuel dt mv) (s, none) = (s1, none) := by
  induction l with
  | nil =>
    intro s s1 h
    simp only [List.foldlM_nil] at h
    cases h
    exact ⟨0, fun _ _ => rfl⟩
  | cons i l ih =>
    intro s s1 h
    rw [List.foldlM_cons] at h
    rcases hb : Sim.Tick.body dt mv s i with e | s2
    · rw [hb] at h
      cases h
    · rw [hb] at h
      obtain ⟨N1, h1⟩ := ofField_Tick_body dt mv s s2 i hb
      obtain ⟨N2, h2⟩ := ih s2 s1 h
      refine ⟨max N1 N2, fun fuel hfuel => ?_⟩
      rw [List.foldl_cons, h1 fuel (le_trans (le_max_left _ _) hfuel)]
      exact h2 fuel (le_trans (le_max_right _ _) hfuel)

/-- Whenever `Sim.Tick` returns a state, `Tick` in the arithmetic of the field runs to
the end of its loop and leaves that state, once its loops `for` are allowed enough
steps. -/
theorem ofField_Tick (s s1 : Sim F) (dt : F) (h : s.Tick dt = .ok s1) :
    ∃ N : Nat, ∀ fuel : Nat, N ≤ fuel → Arith.ofField.Tick fuel s dt = (s1, none) := by
  unfold Sim.Tick at h
  obtain ⟨N, hN⟩ := ofField_Tick_fold dt _ _ s s1 h
  refine ⟨N, fun fuel hfuel => ?_⟩
  have := hN fuel hfuel
  unfold Arith.Tick
  have hmv : Arith.ofField.mul (Arith.ofField.lit (90.0 * (2.0 : ℚ))) dt =
      (90.0 : F) * 2.0 * dt := by
    simp only [Arith.ofField]
    norm_num
  dsimp only
  rw [hmv]
  exact this

end OfField

/-- C12: for every simulation state and every `dt`, in every arithmetic for `float64`
(IEEE-754 with its `NaN` included) and however the run ends (at the end of the loop
over the actors, in a panic, or in a loop `for` that is still running), the state
that `Tick(dt)` leaves has the same number of actors in the same order and the world
has received nothing; each actor has the attractor and the repulsor list it had (so
every obstacle is where it was), and differs from what it was in its fields `PosX`,
`PosY`, `Heading` and `TargetAngle` at most. -/
theorem Tick_frame {V : Type} (o : Arith V) (fuel : Nat) (s : Sim V) (dt : V) :
    (o.Tick fuel s dt).1.actors.length = s.actors.length ∧
      (o.Tick fuel s dt).1.world = s.world ∧
      ∀ (i : Nat) (a : Actor V), s.actors[i]? = some a →
        ∃ a' : Actor V, (o.Tick fuel s dt).1.actors[i]? = some a' ∧
          a'.attractor = a.attractor ∧ a'.repulsors = a.repulsors ∧
          a' = { a with PosX := a'.PosX, PosY := a'.PosY, Heading := a'.Heading,
                        TargetAngle := a'.TargetAngle } := by
  have h := Arith.Tick.fold_links o fuel dt (o.mul (o.lit (90.0 * 2.0)) dt) s
    (List.range s.actors.length) (s, none)
    ⟨rfl, rfl, fun i b hb => ⟨b, hb, rfl, rfl⟩⟩
  obtain ⟨hlen, hw, hfr⟩ := h
  refine ⟨hlen, hw, ?_⟩
  intro i a hi
  obtain ⟨a', ha', hatt, hrep⟩ := hfr i a hi
  refine ⟨a', ha', hatt, hrep, ?_⟩
  cases a'
  cases a
  simp only [Actor.mk.injEq, true_and]
  exact ⟨hatt, hrep⟩

omit [LinearOrderedField F] in
theorem Actor.eq_of_fields {a b : Actor F} (h1 : a.PosX = b.PosX) (h2 : a.PosY = b.PosY)
    (h3 : a.Heading = b.Heading) (h4 : a.TargetAngle = b.TargetAngle)
    (h5 : a.attractor = b.attractor) (h6 : a.repulsors = b.repulsors) : a = b := by
  cases a
  cases b
  simp only [Actor.mk.injEq]
  exact ⟨h1, h2, h3, h4, h5, h6⟩

/-- C20 as amended: whenever `Tick(0)` runs to its end, every actor has the position,
the heading, the attractor and the repulsors it had; only `TargetAngle` may have
been rewritten. -/
theorem Tick_zero (s s' : Sim ℝ) (i : Nat) (a : Actor ℝ)
    (h : s.Tick 0 = .ok s') (hi : s.actors[i]? = some a) :
    ∃ a' : Actor ℝ, s'.actors[i]? = some a' ∧ a'.PosX = a.PosX ∧ a'.PosY = a.PosY ∧
      a'.Heading = a.Heading ∧ a' = { a with TargetAngle := a'.TargetAngle } := by
  obtain ⟨sm, ap, -, -, -, hplan, hs'⟩ := Sim.Tick_actor h hi
  obtain ⟨hX, hY, hH, hatt, hrep⟩ := Actor.PlanAhead_frame hplan
  have hm : (120 : ℝ) * 2.0 * 0 = 0 := by norm_num
  have hmv : (90.0 : ℝ) * 2.0 * 0 = 0 := by norm_num
  have hhead : (Sim.Tick.advance 0 (90.0 * 2.0 * 0) ap).Heading = a.Heading := by
    rw [Sim.Tick.advance_Heading, hm, Sim.Tick.clamp_eq (le_refl 0), hH]
    have : ∀ r : ℝ, max (-(0 : ℝ)) (min 0 r) = 0 := by
      intro r
      rw [neg_zero]
      exact le_antisymm (max_le (le_refl 0) (min_le_left _ _)) (le_max_left _ _)
    rw [this, add_zero]
  have hx : (Sim.Tick.advance 0 (90.0 * 2.0 * 0) ap).PosX = a.PosX := by
    rw [Sim.Tick.advance_PosX, hmv, mul_zero, add_zero, hX]
  have hy : (Sim.Tick.advance 0 (90.0 * 2.0 * 0) ap).PosY = a.PosY := by
    rw [Sim.Tick.advance_PosY, hmv, mul_zero, add_zero, hY]
  refine ⟨_, hs', hx, hy, hhead, ?_⟩
  exact Actor.eq_of_fields hx hy hhead rfl hatt hrep

/-- C20 as amended, at an actor heading `-170` with stale target angle `5`: after
`Tick(0)` it is where it was, still heading `-170`, with target angle `0`. -/
theorem Tick_zero_witness :
    (northSim (-170 : ℝ) 5).Tick 0 =
      .ok { world := [],
            actors := [Sim.Tick.advance 0 (90.0 * 2.0 * 0) (northActor (-170) 0)] } ∧
    (northSim (-170 : ℝ) 5).actors[0]? = some (northActor (-170 : ℝ) 5) ∧
    ∃ a' : Actor ℝ,
      (Sim.mk ([] : List (Event ℝ))
        [Sim.Tick.advance 0 (90.0 * 2.0 * 0) (northActor (-170) 0)]).actors[0]? = some a' ∧
      a'.PosX = (northActor (-170 : ℝ) 5).PosX ∧ a'.PosY = (northActor (-170 : ℝ) 5).PosY ∧
      a'.Heading = (northActor (-170 : ℝ) 5).Heading ∧
      a' = { northActor (-170 : ℝ) 5 with TargetAngle := a'.TargetAngle } :=
  ⟨northSim_Tick _ _ _, rfl, Tick_zero _ _ 0 _ (northSim_Tick _ _ _) rfl⟩

/-- C20 as stated fails: in a simulation whose actor stands on its attractor,
`Tick(0)` divides by the zero distance and yields no heading equal to the old one (in
Go, heading and position become `NaN`). -/
theorem Tick_zero_counterexample :
    (stuckSim : Sim ℝ).Tick 0 = .error .zeroDistance ∧
    ¬ ∃ s', (stuckSim : Sim ℝ).Tick 0 = .ok s' ∧
      ∀ (i : Nat) (a : Actor ℝ), (stuckSim : Sim ℝ).actors[i]? = some a →
        ∃ a' : Actor ℝ, s'.actors[i]? = some a' ∧ a'.PosX = a.PosX ∧ a'.PosY = a.PosY ∧
          a'.Heading = a.Heading := by
  refine ⟨stuckSim_Tick _, ?_⟩
  rintro ⟨s', h, -⟩
  rw [stuckSim_Tick] at h
  cases h

/-! ## The magnitude of the forces -/

theorem norm_scaled (dx dy c d : ℝ) (hd : d = Real.sqrt (dx ^ 2 + dy ^ 2)) (hc : 0 ≤ c) :
    Real.sqrt ((dx * c) ^ 2 + (dy * c) ^ 2) = d * c := by
  have h : (dx * c) ^ 2 + (dy * c) ^ 2 = (dx ^ 2 + dy ^ 2) * c ^ 2 := by ring
  rw [h, Real.sqrt_mul (by positivity), Real.sqrt_sq hc, hd]

/-- Read over the real numbers, the norm of the repulsing force at distance `d > 0` is
`(150 - d) * 0.2` up to 150 and zero beyond, and so less than 30.  In `float64` the
quotient `150 / d` overflows once `d` is below `150 / 2^1024`, and the force has an
infinite component there; an ordered field has no such value. -/
theorem Actor.ProbeRepulsingField_norm (a : Actor ℝ) (x y d : ℝ)
    (hd : d = Real.sqrt ((a.PosX - x) ^ 2 + (a.PosY - y) ^ 2)) (h0 : 0 < d) :
    ∃ f, a.ProbeRepulsingField x y = .ok f ∧
      Real.sqrt (f.1 ^ 2 + f.2 ^ 2) = (if d ≤ 150 then (150 - d) * 0.2 else 0) ∧
      Real.sqrt (f.1 ^ 2 + f.2 ^ 2) < 30 := by
  have hd' : Real.sqrt ((a.PosX - x) * (a.PosX - x) + (a.PosY - y) * (a.PosY - y)) = d := by
    rw [← sq, ← sq]
    exact hd.symm
  by_cases h150 : d ≤ 150
  · have hc : (0 : ℝ) ≤ (150 / d - 1) * 0.2 := by
      have : (1 : ℝ) ≤ 150 / d := by
        rw [le_div_iff₀ h0]
        linarith
      have h2 : (0 : ℝ) ≤ 150 / d - 1 := by linarith
      positivity
    have hval : a.ProbeRepulsingField x y =
        .ok ((a.PosX - x) * ((150 / d - 1) * 0.2), (a.PosY - y) * ((150 / d - 1) * 0.2)) := by
      simp only [Actor.ProbeRepulsingField, Hypot_real, hd', if_neg (not_lt.mpr h150),
        if_neg (ne_of_gt h0)]
    have hn : Real.sqrt (((a.PosX - x) * ((150 / d - 1) * 0.2)) ^ 2 +
        ((a.PosY - y) * ((150 / d - 1) * 0.2)) ^ 2) = (150 - d) * 0.2 := by
      rw [norm_scaled _ _ _ d hd hc]
      field_simp
    refine ⟨_, hval, ?_, ?_⟩
    · rw [if_pos h150]
      exact hn
    · rw [hn]
      linarith
  · have hval : a.ProbeRepulsingField x y = .ok (0, 0) := by
      simp only [Actor.ProbeRepulsingField, Hypot_real, hd', if_pos (not_le.mp h150)]
    refine ⟨_, hval, ?_, ?_⟩
    · rw [if_neg h150]
      norm_num
    · norm_num

/-- The attracting force at distance `d > 0`: the vector from probe to source
multiplied by `10 / d`. -/
theorem Actor.ProbeAttractingField_val (a : Actor ℝ) (x y d : ℝ)
    (hd : d = Real.sqrt ((x - a.PosX) ^ 2 + (y - a.PosY) ^ 2)) (h0 : 0 < d) :
    a.ProbeAttractingField x y =
      .ok ((x - a.PosX) * (10 / d), (y - a.PosY) * (10 / d)) := by
  have hd' : Real.sqrt ((x - a.PosX) * (x - a.PosX) + (y - a.PosY) * (y - a.PosY)) = d := by
    rw [← sq, ← sq]
    exact hd.symm
  simp only [Actor.ProbeAttractingField, Hypot_real, hd', if_neg (ne_of_gt h0)]
  rw [one_div_mul_eq_div]

/-- C15 as amended: what is `attractingPower / d` is the factor of the attracting
force, not its norm.  For every source and probe at a distance `d > 0` the force
returned by `ProbeAttractingField` is the vector from probe to source multiplied by
`10 / d`; and this factor is unbounded as `d → 0`: for every bound `M` there are a
source and a probe at a distance `d > 0` for which the factor `10 / d` of the force
returned exceeds `M`. -/
theorem ProbeAttractingField_scaled (a : Actor ℝ) (x y d : ℝ)
    (hd : d = Real.sqrt ((x - a.PosX) ^ 2 + (y - a.PosY) ^ 2)) (h0 : 0 < d) :
    a.ProbeAttractingField x y =
        .ok ((x - a.PosX) * (10 / d), (y - a.PosY) * (10 / d)) ∧
      ∀ M : ℝ, ∃ (b : Actor ℝ) (u v : ℝ),
        0 < Real.sqrt ((u - b.PosX) ^ 2 + (v - b.PosY) ^ 2) ∧
        M < 10 / Real.sqrt ((u - b.PosX) ^ 2 + (v - b.PosY) ^ 2) ∧
        b.ProbeAttractingField u v =
          .ok ((u - b.PosX) * (10 / Real.sqrt ((u - b.PosX) ^ 2 + (v - b.PosY) ^ 2)),
            (v - b.PosY) * (10 / Real.sqrt ((u - b.PosX) ^ 2 + (v - b.PosY) ^ 2))) := by
  refine ⟨Actor.ProbeAttractingField_val a x y d hd h0, ?_⟩
  intro M
  have hpos : (0 : ℝ) < 10 / (|M| + 1) := by positivity
  have hdist : Real.sqrt ((10 / (|M| + 1) - (probeActor (0 : ℝ) 0).PosX) ^ 2 +
      (0 - (probeActor (0 : ℝ) 0).PosY) ^ 2) = 10 / (|M| + 1) := by
    simp only [probeActor]
    rw [show (10 / (|M| + 1) - 0) ^ 2 + ((0 : ℝ) - 0) ^ 2 = (10 / (|M| + 1)) ^ 2 by ring]
    exact Real.sqrt_sq (le_of_lt hpos)
  refine ⟨probeActor 0 0, 10 / (|M| + 1), 0, ?_, ?_, ?_⟩
  · rw [hdist]
    exact hpos
  · rw [hdist]
    have h1 : (10 : ℝ) / (10 / (|M| + 1)) = |M| + 1 := by
      field_simp
    rw [h1]
    linarith [le_abs_self M]
  · exact Actor.ProbeAttractingField_val _ _ _ _ rfl (by rw [hdist]; exact hpos)

/-- C15 as amended, at the probe `(0, 0)` and the source `(3, 4)`, at distance 5: the
force is `(3 * (10 / 5), 4 * (10 / 5))`. -/
theorem ProbeAttractingField_scaled_witness :
    (5 : ℝ) = Real.sqrt ((3 - (probeActor (0 : ℝ) 0).PosX) ^ 2 +
      (4 - (probeActor (0 : ℝ) 0).PosY) ^ 2) ∧
    (0 : ℝ) < 5 ∧
    (probeActor (0 : ℝ) 0).ProbeAttractingField 3 4 =
        .ok ((3 - (probeActor (0 : ℝ) 0).PosX) * (10 / 5),
          (4 - (probeActor (0 : ℝ) 0).PosY) * (10 / 5)) ∧
      ∀ M : ℝ, ∃ (b : Actor ℝ) (u v : ℝ),
        0 < Real.sqrt ((u - b.PosX) ^ 2 + (v - b.PosY) ^ 2) ∧
        M < 10 / Real.sqrt ((u - b.PosX) ^ 2 + (v - b.PosY) ^ 2) ∧
        b.ProbeAttractingField u v =
          .ok ((u - b.PosX) * (10 / Real.sqrt ((u - b.PosX) ^ 2 + (v - b.PosY) ^ 2)),
            (v - b.PosY) * (10 / Real.sqrt ((u - b.PosX) ^ 2 + (v - b.PosY) ^ 2))) := by
  have hd : (5 : ℝ) = Real.sqrt ((3 - (probeActor (0 : ℝ) 0).PosX) ^ 2 +
      (4 - (probeActor (0 : ℝ) 0).PosY) ^ 2) := by
    simp only [probeActor]
    rw [show ((3 : ℝ) - 0) ^ 2 + (4 - 0) ^ 2 = 5 ^ 2 by norm_num]
    exact (Real.sqrt_sq (by norm_num)).symm
  exact ⟨hd, by norm_num,
    ProbeAttractingField_scaled (probeActor 0 0) 3 4 5 hd (by norm_num)⟩

/-- C15 as stated fails at the spec's own example: for the probe `(0, 0)` and the
source `(10, 0)`, at distance 10, the force is `(10, 0)`, of norm `10` and not
`10 / 10 = 1`. -/
theorem ProbeAttractingField_scaled_counterexample :
    (probeActor (0 : ℝ) 0).ProbeAttractingField 10 0 = .ok (10, 0) ∧
    Real.sqrt ((10 - (probeActor (0 : ℝ) 0).PosX) ^ 2 +
      (0 - (probeActor (0 : ℝ) 0).PosY) ^ 2) = 10 ∧
    Real.sqrt ((10 : ℝ) ^ 2 + 0 ^ 2) = 10 ∧
    Real.sqrt ((10 : ℝ) ^ 2 + 0 ^ 2) ≠ 10 / 10 := by
  have h10 : Real.sqrt ((10 : ℝ) ^ 2 + 0 ^ 2) = 10 := by
    rw [show (10 : ℝ) ^ 2 + 0 ^ 2 = 10 ^ 2 by norm_num]
    exact Real.sqrt_sq (by norm_num)
  have hd : Real.sqrt ((10 - (probeActor (0 : ℝ) 0).PosX) ^ 2 +
      (0 - (probeActor (0 : ℝ) 0).PosY) ^ 2) = 10 := by
    simp only [probeActor]
    rw [show ((10 : ℝ) - 0) ^ 2 + (0 - 0) ^ 2 = 10 ^ 2 by norm_num]
    exact Real.sqrt_sq (by norm_num)
  refine ⟨?_, hd, h10, ?_⟩
  · have hd' : Real.sqrt ((10 - (probeActor (0 : ℝ) 0).PosX) *
        (10 - (probeActor (0 : ℝ) 0).PosX) + (0 - (probeActor (0 : ℝ) 0).PosY) *
        (0 - (probeActor (0 : ℝ) 0).PosY)) = 10 := by
      rw [← sq, ← sq]
      exact hd
    simp only [Actor.ProbeAttractingField, Hypot_real, hd']
    simp only [probeActor]
    norm_num
  · rw [h10]
    norm_num

/-! ## The reduction loop over an ordered field -/

section LoopSteps

variable [FloorRing F]

theorem angleBetweenAngles.loopSteps_of_le {res : F} (h : res ≤ 360) :
    angleBetweenAngles.loopSteps res = (res, 0) := by
  rw [angleBetweenAngles.loopSteps, dif_neg (not_lt.mpr h)]

theorem angleBetweenAngles.loopSteps_of_gt {res : F} (h : 360 < res) :
    angleBetweenAngles.loopSteps res =
      ((angleBetweenAngles.loopSteps (res - 360)).1,
        (angleBetweenAngles.loopSteps (res - 360)).2 + 1) := by
  rw [angleBetweenAngles.loopSteps, dif_pos h]

/-- What the reduction loop computes, by induction on the number of revolutions. -/
theorem angleBetweenAngles.loopSteps_spec :
    ∀ (n : Nat) (res : F), ⌈res / 360⌉₊ ≤ n →
      (angleBetweenAngles.loopSteps res).1 = angleBetweenAngles.loop res ∧
      ((angleBetweenAngles.loopSteps res).2 : ℤ) = max 0 ⌈(res - 360) / 360⌉ ∧
      angleBetweenAngles.loop res =
        res - 360 * ((angleBetweenAngles.loopSteps res).2 : F) ∧
      angleBetweenAngles.loop res ≤ 360 ∧ (0 < res → 0 < angleBetweenAngles.loop res) := by
  intro n
  induction n with
  | zero =>
    intro res hn
    have hle : res ≤ 360 := by
      have h0 : res / 360 ≤ 0 := by
        have := Nat.ceil_eq_zero.mp (Nat.le_zero.mp hn)
        exact this
      have : res ≤ 0 := by
        rw [div_le_iff₀ (by norm_num)] at h0
        simpa using h0
      linarith
    have hc : ⌈(res - 360) / 360⌉ ≤ 0 := by
      rw [Int.ceil_le]
      simp only [Int.cast_zero]
      exact div_nonpos_of_nonpos_of_nonneg (by linarith) (by norm_num)
    rw [angleBetweenAngles.loopSteps_of_le hle, angleBetweenAngles.loop_of_le hle]
    refine ⟨rfl, ?_, by simp, hle, fun h => h⟩
    simp [max_eq_left hc]
  | succ n ih =>
    intro res hn
    by_cases hle : res ≤ 360
    · have hc : ⌈(res - 360) / 360⌉ ≤ 0 := by
        rw [Int.ceil_le]
        simp only [Int.cast_zero]
        exact div_nonpos_of_nonpos_of_nonneg (by linarith) (by norm_num)
      rw [angleBetweenAngles.loopSteps_of_le hle, angleBetweenAngles.loop_of_le hle]
      refine ⟨rfl, ?_, by simp, hle, fun h => h⟩
      simp [max_eq_left hc]
    · have hgt : 360 < res := not_le.mp hle
      have h1 : (res - 360) / 360 = res / 360 - 1 := by field_simp
      have h2 : (0 : F) ≤ res / 360 - 1 := by
        rw [sub_nonneg, le_div_iff₀ (by norm_num)]
        simpa using (le_of_lt hgt)
      have h3 : ⌈res / 360⌉₊ = ⌈res / 360 - 1⌉₊ + 1 := by
        rw [← Nat.ceil_add_one h2, sub_add_cancel]
      have hn' : ⌈(res - 360) / 360⌉₊ ≤ n := by
        rw [h1]
        omega
      obtain ⟨i1, i2, i3, i4, i5⟩ := ih (res - 360) hn'
      have hc1 : (1 : ℤ) ≤ ⌈(res - 360) / 360⌉ := by
        rw [Int.one_le_ceil_iff]
        exact div_pos (by linarith) (by norm_num)
      have hc2 : ⌈(res - 360 - 360) / 360⌉ = ⌈(res - 360) / 360⌉ - 1 := by
        rw [← Int.ceil_sub_one]
        congr 1
        field_simp
      rw [angleBetweenAngles.loopSteps_of_gt hgt, angleBetweenAngles.loop_of_gt hgt]
      refine ⟨i1, ?_, ?_, i4, fun _ => i5 (by linarith)⟩
      · simp only [Nat.cast_add, Nat.cast_one]
        rw [i2, hc2, max_eq_right (by omega), max_eq_right (by omega)]
        ring
      · rw [i3]
        simp only [Nat.cast_add, Nat.cast_one]
        ring

end LoopSteps

/-- C19: when `b - a > -180`, `angleBetweenAngles(a, b)` lies in `(-180, 180]` and
differs from `b - a` by an integer multiple of 360, and it is the only such value;
for any inputs at all the result is at most `180` and at most the difference of the
inputs, because the loop only subtracts. -/
theorem angleBetweenAngles_normalised (a b : ℝ) (h : b - a > -180) :
    -180 < angleBetweenAngles a b ∧ angleBetweenAngles a b ≤ 180 ∧
      (∃ k : ℤ, angleBetweenAngles a b = b - a + 360 * (k : ℝ)) ∧
      (∀ v : ℝ, -180 < v → v ≤ 180 → (∃ k : ℤ, v = b - a + 360 * (k : ℝ)) →
        v = angleBetweenAngles a b) ∧
      ∀ a' b' : ℝ, angleBetweenAngles a' b' ≤ 180 ∧ angleBetweenAngles a' b' ≤ b' - a' := by
  have hany : ∀ a' b' : ℝ, angleBetweenAngles a' b' ≤ 180 ∧
      angleBetweenAngles a' b' ≤ b' - a' ∧
      (∃ k : ℤ, angleBetweenAngles a' b' = b' - a' + 360 * (k : ℝ)) ∧
      (b' - a' > -180 → -180 < angleBetweenAngles a' b') := by
    intro a' b'
    obtain ⟨-, -, h3, h4, h5⟩ :=
      angleBetweenAngles.loopSteps_spec ⌈(b' - a' + 180) / 360⌉₊ (b' - a' + 180) (le_refl _)
    have hn : (0 : ℝ) ≤ ((angleBetweenAngles.loopSteps (b' - a' + 180)).2 : ℝ) :=
      Nat.cast_nonneg _
    simp only [angleBetweenAngles]
    refine ⟨by linarith, by linarith, ⟨-((angleBetweenAngles.loopSteps (b' - a' + 180)).2 : ℤ), ?_⟩,
      fun hgt => ?_⟩
    · rw [h3]
      push_cast
      ring
    · have := h5 (by linarith)
      linarith
  obtain ⟨hle, -, ⟨k, hk⟩, hlo⟩ := hany a b
  refine ⟨hlo h, hle, ⟨k, hk⟩, ?_, fun a' b' => ⟨(hany a' b').1, (hany a' b').2.1⟩⟩
  rintro v hv1 hv2 ⟨k', hk'⟩
  have hlo' := hlo h
  have hdiff : (360 : ℝ) * ((k' - k : ℤ) : ℝ) = v - angleBetweenAngles a b := by
    rw [hk', hk]
    push_cast
    ring
  have h1 : ((k' - k : ℤ) : ℝ) < 1 := by
    have : (360 : ℝ) * ((k' - k : ℤ) : ℝ) < 360 := by rw [hdiff]; linarith
    linarith
  have h2 : (-1 : ℝ) < ((k' - k : ℤ) : ℝ) := by
    have : (-360 : ℝ) < 360 * ((k' - k : ℤ) : ℝ) := by rw [hdiff]; linarith
    linarith
  have h3 : k' - k < 1 := by exact_mod_cast h1
  have h4 : -1 < k' - k := by exact_mod_cast h2
  have h5 : k' - k = 0 := by omega
  rw [h5] at hdiff
  simp only [Int.cast_zero, mul_zero] at hdiff
  linarith

/-- C19, at `a = 10` and `b = 350`. -/
theorem angleBetweenAngles_normalised_witness :
    (350 : ℝ) - 10 > -180 ∧
    -180 < angleBetweenAngles (10 : ℝ) 350 ∧ angleBetweenAngles (10 : ℝ) 350 ≤ 180 ∧
      (∃ k : ℤ, angleBetweenAngles (10 : ℝ) 350 = 350 - 10 + 360 * (k : ℝ)) ∧
      (∀ v : ℝ, -180 < v → v ≤ 180 → (∃ k : ℤ, v = 350 - 10 + 360 * (k : ℝ)) →
        v = angleBetweenAngles (10 : ℝ) 350) ∧
      ∀ a' b' : ℝ, angleBetweenAngles a' b' ≤ 180 ∧ angleBetweenAngles a' b' ≤ b' - a' :=
  ⟨by norm_num, angleBetweenAngles_normalised 10 350 (by norm_num)⟩

/-! ## PlanAhead: the net force -/

theorem Actor.PlanAhead.addRepulsion_ok_iff (s : Sim ℝ) (a : Actor ℝ) (f f' : ℝ × ℝ)
    (r : Emitter ℝ) :
    Actor.PlanAhead.addRepulsion s a f r = .ok f' ↔
      ∃ q c, r.GetPos s = .ok q ∧ a.ProbeRepulsingField q.1 q.2 = .ok c ∧
        f' = (f.1 + c.1, f.2 + c.2) := by
  unfold Actor.PlanAhead.addRepulsion
  rcases hq : r.GetPos s with e | ⟨rx, ry⟩
  · simp
  · rcases hc : a.ProbeRepulsingField rx ry with e | ⟨cx, cy⟩
    · simp [hc]
    · simp only [hc, Except.ok.injEq]
      constructor
      · intro h
        exact ⟨(rx, ry), (cx, cy), rfl, hc, h.symm⟩
      · rintro ⟨q', c', hq', hc', hf⟩
        cases hq'
        rw [hc] at hc'
        cases hc'
        exact hf.symm

theorem Actor.PlanAhead.foldlM_cons_ok (s : Sim ℝ) (a : Actor ℝ) (r : Emitter ℝ)
    (l : List (Emitter ℝ)) (f f' : ℝ × ℝ) :
    (r :: l).foldlM (Actor.PlanAhead.addRepulsion s a) f = .ok f' ↔
      ∃ f1, Actor.PlanAhead.addRepulsion s a f r = .ok f1 ∧
        l.foldlM (Actor.PlanAhead.addRepulsion s a) f1 = .ok f' := by
  simp only [List.foldlM_cons, bind, Except.bind]
  rcases h1 : Actor.PlanAhead.addRepulsion s a f r with e | f1
  · simp
  · simp

/-- The loop over the repulsors adds, to the force it starts from, the sum of the
forces of the repulsors. -/
theorem Actor.PlanAhead.foldlM_sum (s : Sim ℝ) (a : Actor ℝ) :
    ∀ (l : List (Emitter ℝ)) (f f' : ℝ × ℝ),
      l.foldlM (Actor.PlanAhead.addRepulsion s a) f = .ok f' →
      ∃ fs : List (ℝ × ℝ),
        List.Forall₂ (fun r c => ∃ q, r.GetPos s = .ok q ∧
          a.ProbeRepulsingField q.1 q.2 = .ok c) l fs ∧
        f' = (f.1 + (fs.map Prod.fst).sum, f.2 + (fs.map Prod.snd).sum) := by
  intro l
  induction l with
  | nil =>
    intro f f' h
    simp only [List.foldlM_nil, pure, Except.pure, Except.ok.injEq] at h
    exact ⟨[], List.Forall₂.nil, by simp [h]⟩
  | cons r l ih =>
    intro f f' h
    obtain ⟨f1, h1, h2⟩ := (Actor.PlanAhead.foldlM_cons_ok s a r l f f').mp h
    obtain ⟨q, c, hq, hc, hf1⟩ := (Actor.PlanAhead.addRepulsion_ok_iff s a f f1 r).mp h1
    obtain ⟨fs, hall, hf'⟩ := ih f1 f' h2
    refine ⟨c :: fs, List.Forall₂.cons ⟨q, hq, hc⟩ hall, ?_⟩
    rw [hf', hf1]
    simp only [List.map_cons, List.sum_cons]
    ext <;> simp only <;> ring

/-- The loop over the repulsors gives the same force for every order of the
repulsors. -/
theorem Actor.PlanAhead.foldlM_perm (s : Sim ℝ) (a : Actor ℝ) {l1 l2 : List (Emitter ℝ)}
    (hp : l1.Perm l2) :
    ∀ f f' : ℝ × ℝ, l1.foldlM (Actor.PlanAhead.addRepulsion s a) f = .ok f' →
      l2.foldlM (Actor.PlanAhead.addRepulsion s a) f = .ok f' := by
  induction hp with
  | nil => intro f f' h; exact h
  | cons r _ ih =>
    intro f f' h
    obtain ⟨f1, h1, h2⟩ := (Actor.PlanAhead.foldlM_cons_ok s a r _ f f').mp h
    exact (Actor.PlanAhead.foldlM_cons_ok s a r _ f f').mpr ⟨f1, h1, ih f1 f' h2⟩
  | swap x y l =>
    intro f f' h
    obtain ⟨f1, h1, h2⟩ := (Actor.PlanAhead.foldlM_cons_ok s a y _ f f').mp h
    obtain ⟨f2, h3, h4⟩ := (Actor.PlanAhead.foldlM_cons_ok s a x _ f1 f').mp h2
    obtain ⟨qy, cy, hqy, hcy, hf1⟩ := (Actor.PlanAhead.addRepulsion_ok_iff s a f f1 y).mp h1
    obtain ⟨qx, cx, hqx, hcx, hf2⟩ := (Actor.PlanAhead.addRepulsion_ok_iff s a f1 f2 x).mp h3
    refine (Actor.PlanAhead.foldlM_cons_ok s a x _ f f').mpr
      ⟨(f.1 + cx.1, f.2 + cx.2),
        (Actor.PlanAhead.addRepulsion_ok_iff s a f _ x).mpr ⟨qx, cx, hqx, hcx, rfl⟩, ?_⟩
    refine (Actor.PlanAhead.foldlM_cons_ok s a y _ _ f').mpr
      ⟨f2, (Actor.PlanAhead.addRepulsion_ok_iff s a _ f2 y).mpr ⟨qy, cy, hqy, hcy, ?_⟩, h4⟩
    rw [hf2, hf1]
    ext <;> simp only <;> ring
  | trans _ _ ih1 ih2 =>
    intro f f' h
    exact ih2 f f' (ih1 f f' h)

theorem Actor.PlanAhead.foldlM_perm_toOption (s : Sim ℝ) (a : Actor ℝ)
    {l1 l2 : List (Emitter ℝ)} (hp : l1.Perm l2) (f : ℝ × ℝ) :
    (l1.foldlM (Actor.PlanAhead.addRepulsion s a) f).toOption =
      (l2.foldlM (Actor.PlanAhead.addRepulsion s a) f).toOption := by
  rcases h1 : l1.foldlM (Actor.PlanAhead.addRepulsion s a) f with e1 | f1
  · rcases h2 : l2.foldlM (Actor.PlanAhead.addRepulsion s a) f with e2 | f2
    · rfl
    · have := Actor.PlanAhead.foldlM_perm s a hp.symm f f2 h2
      rw [h1] at this
      cases this
  · rw [Actor.PlanAhead.foldlM_perm s a hp f f1 h1]

theorem Actor.ProbeRepulsingField_of_far (a : Actor ℝ) (x y : ℝ)
    (h : Real.sqrt ((a.PosX - x) ^ 2 + (a.PosY - y) ^ 2) > 150) :
    a.ProbeRepulsingField x y = .ok (0, 0) := by
  have h' : Real.sqrt ((a.PosX - x) * (a.PosX - x) + (a.PosY - y) * (a.PosY - y)) > 150 := by
    rw [← sq, ← sq]
    exact h
  simp only [Actor.ProbeRepulsingField, Hypot_real, if_pos h']

/-- A repulsor farther than 150 from the actor leaves the force as it is. -/
theorem Actor.PlanAhead.addRepulsion_far (s : Sim ℝ) (a : Actor ℝ) (f : ℝ × ℝ)
    {r : Emitter ℝ} {q : ℝ × ℝ} (hq : r.GetPos s = .ok q)
    (hfar : Real.sqrt ((a.PosX - q.1) ^ 2 + (a.PosY - q.2) ^ 2) > 150) :
    Actor.PlanAhead.addRepulsion s a f r = .ok f := by
  refine (Actor.PlanAhead.addRepulsion_ok_iff s a f f r).mpr
    ⟨q, (0, 0), hq, Actor.ProbeRepulsingField_of_far a q.1 q.2 hfar, ?_⟩
  simp

/-- The net force of `PlanAhead` when the repulsor list of the actor is `l`: the
attracting force, then the loop over `l`. -/
theorem Actor.PlanAhead.force_repulsors (s : Sim ℝ) (a : Actor ℝ) (l : List (Emitter ℝ)) :
    Actor.PlanAhead.force s { a with repulsors := l } =
      match a.attractor with
      | none => .error .nilAttractor
      | some e =>
        match e.GetPos s with
        | .error err => .error err
        | .ok (ax, ay) =>
          match a.ProbeAttractingField ax ay with
          | .error err => .error err
          | .ok f => l.foldlM (Actor.PlanAhead.addRepulsion s a) f := by
  have h1 : ∀ x y : ℝ, Actor.ProbeAttractingField { a with repulsors := l } x y =
      a.ProbeAttractingField x y := fun _ _ => rfl
  have h2 : Actor.PlanAhead.addRepulsion s { a with repulsors := l } =
      Actor.PlanAhead.addRepulsion s a := by
    funext f r
    rfl
  unfold Actor.PlanAhead.force
  simp only [h1, h2]
  rcases a.attractor with _ | e
  · rfl
  · dsimp only
    rcases e.GetPos s with err | ⟨ax, ay⟩
    · rfl
    · dsimp only
      rcases a.ProbeAttractingField ax ay with err | f
      · rfl
      · rfl

theorem Actor.PlanAhead_TargetAngle (s : Sim ℝ) (a : Actor ℝ) :
    (a.PlanAhead s).toOption.map (fun ap => ap.TargetAngle) =
      (Actor.PlanAhead.force s a).toOption.map
        (fun f => Actor.PlanAhead.loop (GoMath.Atan2 f.2 f.1 / GoMath.Pi * 180 + 90)) := by
  unfold Actor.PlanAhead
  rcases hf : Actor.PlanAhead.force s a with e | f
  · rfl
  · rfl

theorem Actor.PlanAhead.force_perm (s : Sim ℝ) (a : Actor ℝ) {l1 l2 : List (Emitter ℝ)}
    (hp : l1.Perm l2) :
    (Actor.PlanAhead.force s { a with repulsors := l1 }).toOption =
      (Actor.PlanAhead.force s { a with repulsors := l2 }).toOption := by
  rw [Actor.PlanAhead.force_repulsors, Actor.PlanAhead.force_repulsors]
  rcases a.attractor with _ | e
  · rfl
  · dsimp only
    rcases e.GetPos s with err | ⟨ax, ay⟩
    · rfl
    · dsimp only
      rcases a.ProbeAttractingField ax ay with err | f
      · rfl
      · exact Actor.PlanAhead.foldlM_perm_toOption s a hp f

theorem Actor.PlanAhead.force_drop_far (s : Sim ℝ) (a : Actor ℝ) (l1 l2 : List (Emitter ℝ))
    {r : Emitter ℝ} {q : ℝ × ℝ} (hq : r.GetPos s = .ok q)
    (hfar : Real.sqrt ((a.PosX - q.1) ^ 2 + (a.PosY - q.2) ^ 2) > 150) :
    Actor.PlanAhead.force s { a with repulsors := l1 ++ r :: l2 } =
      Actor.PlanAhead.force s { a with repulsors := l1 ++ l2 } := by
  rw [Actor.PlanAhead.force_repulsors, Actor.PlanAhead.force_repulsors]
  rcases a.attractor with _ | e
  · rfl
  · dsimp only
    rcases e.GetPos s with err | ⟨ax, ay⟩
    · rfl
    · dsimp only
      rcases a.ProbeAttractingField ax ay with err | f
      · rfl
      · dsimp only
        rw [List.foldlM_append, List.foldlM_append]
        congr 1
        funext f1
        rw [List.foldlM_cons, Actor.PlanAhead.addRepulsion_far s a f1 hq hfar]
        rfl

theorem Actor.PlanAhead.force_ok (s : Sim ℝ) (a : Actor ℝ) (e : Emitter ℝ) (p : ℝ × ℝ)
    (hatt : a.attractor = some e) (hp : e.GetPos s = .ok p) (hne : p ≠ (a.PosX, a.PosY))
    (hrep : ∀ r ∈ a.repulsors, ∃ q, r.GetPos s = .ok q ∧ q ≠ (a.PosX, a.PosY)) :
    ∃ f, Actor.PlanAhead.force s a = .ok f := by
  obtain ⟨f0, hf0⟩ := Actor.ProbeAttractingField_ok a (x := p.1) (y := p.2) hne
  obtain ⟨f, hf⟩ := Actor.PlanAhead.foldlM_ok s a a.repulsors f0 hrep
  refine ⟨f, ?_⟩
  simp only [Actor.PlanAhead.force, hatt, hp, hf0]
  exact hf

/-- C16: `PlanAhead` computes the net force as the attracting force of the attractor
plus the sum of the repulsing forces of all repulsors, each probed at the position
of the actor, and takes the target angle from it; the target angle (and whether
there is one) is the same for every permutation `l` of the repulsor list; and a
repulsor farther than 150 from the actor can be dropped from the list without
changing the net force. -/
theorem PlanAhead_net_force (s : Sim ℝ) (a : Actor ℝ) (l : List (Emitter ℝ))
    (hperm : l.Perm a.repulsors) :
    (∀ f, Actor.PlanAhead.force s a = .ok f →
      ∃ (e : Emitter ℝ) (ax ay : ℝ) (fa : ℝ × ℝ) (fs : List (ℝ × ℝ)),
        a.attractor = some e ∧ e.GetPos s = .ok (ax, ay) ∧
        a.ProbeAttractingField ax ay = .ok fa ∧
        List.Forall₂ (fun r c => ∃ q, r.GetPos s = .ok q ∧
          a.ProbeRepulsingField q.1 q.2 = .ok c) a.repulsors fs ∧
        f = (fa.1 + (fs.map Prod.fst).sum, fa.2 + (fs.map Prod.snd).sum) ∧
        (a.PlanAhead s).toOption.map (fun ap => ap.TargetAngle) =
          some (Actor.PlanAhead.loop (GoMath.Atan2 f.2 f.1 / GoMath.Pi * 180 + 90))) ∧
    (Actor.PlanAhead s { a with repulsors := l }).toOption.map (fun ap => ap.TargetAngle) =
      (a.PlanAhead s).toOption.map (fun ap => ap.TargetAngle) ∧
    (∀ (r : Emitter ℝ) (q : ℝ × ℝ) (l1 l2 : List (Emitter ℝ)), r.GetPos s = .ok q →
      Real.sqrt ((a.PosX - q.1) ^ 2 + (a.PosY - q.2) ^ 2) > 150 →
      a.repulsors = l1 ++ r :: l2 →
      Actor.PlanAhead.force s a = Actor.PlanAhead.force s { a with repulsors := l1 ++ l2 }) := by
  have heta : Actor.PlanAhead.force s a =
      Actor.PlanAhead.force s { a with repulsors := a.repulsors } := rfl
  refine ⟨?_, ?_, ?_⟩
  · intro f hf
    have hT := Actor.PlanAhead_TargetAngle s a
    rw [hf] at hT
    rw [heta, Actor.PlanAhead.force_repulsors] at hf
    rcases hatt : a.attractor with _ | e
    · rw [hatt] at hf
      cases hf
    · rw [hatt] at hf
      dsimp only at hf
      rcases hg : e.GetPos s with err | ⟨ax, ay⟩
      · rw [hg] at hf
        cases hf
      · rw [hg] at hf
        dsimp only at hf
        rcases hfa : a.ProbeAttractingField ax ay with err | fa
        · rw [hfa] at hf
          cases hf
        · rw [hfa] at hf
          dsimp only at hf
          obtain ⟨fs, hall, hsum⟩ := Actor.PlanAhead.foldlM_sum s a a.repulsors fa f hf
          exact ⟨e, ax, ay, fa, fs, rfl, hg, hfa, hall, hsum, hT⟩
  · rw [Actor.PlanAhead_TargetAngle, Actor.PlanAhead_TargetAngle, heta,
      Actor.PlanAhead.force_perm s a hperm]
  · intro r q l1 l2 hq hfar hl
    rw [heta, hl]
    exact Actor.PlanAhead.force_drop_far s a l1 l2 hq hfar

/-- C16, at an actor at the origin with its attractor at `(0, -10)` and repulsors at
`(200, 0)` and `(0, 75)`, the list `l` being these two in the other order. -/
theorem PlanAhead_net_force_witness :
    ([.static { PosX := 0, PosY := 75 }, .static { PosX := 200, PosY := 0 }] :
      List (Emitter ℝ)).Perm (guardedActor : Actor ℝ).repulsors ∧
    (∃ f, Actor.PlanAhead.force stuckSim (guardedActor : Actor ℝ) = .ok f) ∧
    (Actor.PlanAhead stuckSim
        { (guardedActor : Actor ℝ) with
          repulsors := [.static { PosX := 0, PosY := 75 },
            .static { PosX := 200, PosY := 0 }] }).toOption.map
          (fun ap => ap.TargetAngle) =
      ((guardedActor : Actor ℝ).PlanAhead stuckSim).toOption.map
        (fun ap => ap.TargetAngle) := by
  have hperm : ([.static { PosX := 0, PosY := 75 }, .static { PosX := 200, PosY := 0 }] :
      List (Emitter ℝ)).Perm (guardedActor : Actor ℝ).repulsors :=
    List.Perm.swap _ _ []
  have hne : ((0 : ℝ), (-10 : ℝ)) ≠
      ((guardedActor : Actor ℝ).PosX, (guardedActor : Actor ℝ).PosY) := by
    simp [guardedActor]
  have hrep : ∀ r ∈ (guardedActor : Actor ℝ).repulsors, ∃ q, r.GetPos stuckSim = .ok q ∧
      q ≠ ((guardedActor : Actor ℝ).PosX, (guardedActor : Actor ℝ).PosY) := by
    intro r hr
    simp only [guardedActor, List.mem_cons, List.mem_singleton, List.not_mem_nil, or_false] at hr
    rcases hr with rfl | rfl
    · exact ⟨(200, 0), rfl, by simp [guardedActor]⟩
    · exact ⟨(0, 75), rfl, by simp [guardedActor]⟩
  exact ⟨hperm, Actor.PlanAhead.force_ok stuckSim guardedActor _ (0, -10) rfl rfl hne hrep,
    (PlanAhead_net_force stuckSim guardedActor _ hperm).2.1⟩

/-! ## Reachable states: every actor has its attractor -/

section LinkedLemmas

variable [GoMath F] [FloorRing F]

theorem Sim.SetWorld_Linked (s : Sim F) (w : List (Event F)) (rand : Nat → Nat → Nat) :
    (s.SetWorld w rand).Linked := by
  intro a ha
  obtain ⟨i, hi⟩ := List.mem_iff_getElem?.mp ha
  have hlen := (Sim.SetWorld_actor s w rand 0 (by norm_num)).1
  have hilt : i < 6 := by
    by_contra hc
    rw [List.getElem?_eq_none (by rw [hlen]; exact not_lt.mp hc)] at hi
    cases hi
  obtain ⟨-, a', ha', hatt, hrep⟩ := Sim.SetWorld_actor s w rand i hilt
  rw [hi] at ha'
  cases ha'
  refine ⟨⟨_, hatt⟩, ?_⟩
  intro j hj
  rw [hrep] at hj
  rw [hlen]
  simp only [List.mem_append, List.mem_map, List.mem_range, List.mem_filter] at hj
  rcases hj with ⟨k, -, hk⟩ | ⟨k, ⟨hk, -⟩, hkj⟩
  · cases hk
  · cases hkj
    exact hk

/-- The links of the actors survive any number of iterations of the loop of `Tick`. -/
theorem Sim.Tick.fold_Linked {dt mv : F} (s sk : Sim F) (k : Nat)
    (hk : k ≤ s.actors.length)
    (h : (List.range k).foldlM (Sim.Tick.body dt mv) s = .ok sk) (hl : s.Linked) :
    sk.Linked := by
  obtain ⟨hlen, -, hfr⟩ := Sim.Tick.fold_frame s sk k hk h
  intro a' ha'
  obtain ⟨i, hi⟩ := List.mem_iff_getElem?.mp ha'
  have hilt : i < s.actors.length := by
    by_contra hc
    rw [List.getElem?_eq_none (by rw [hlen]; exact not_lt.mp hc)] at hi
    cases hi
  obtain ⟨a'', ha'', hatt, hrep⟩ := hfr i s.actors[i] (List.getElem?_eq_getElem hilt)
  rw [hi] at ha''
  cases ha''
  obtain ⟨h1, h2⟩ := hl s.actors[i] (List.getElem_mem hilt)
  rw [hatt, hrep, hlen]
  exact ⟨h1, h2⟩

theorem Reachable.Linked {s : Sim F} (h : Reachable s) : s.Linked := by
  induction h with
  | setWorld s w rand => exact Sim.SetWorld_Linked s w rand
  | tick s s' dt _ ht ih => exact Sim.Tick.fold_Linked s s' s.actors.length (le_refl _) ht ih

end LinkedLemmas

section FaultLemmas

variable [GoMath F] [FloorRing F]

end FaultLemmas

theorem Hypot_real_eval (p q d : ℝ) (hd : 0 ≤ d) (h : p * p + q * q = d * d) :
    GoMath.Hypot p q = d := by
  rw [Hypot_real, h]
  exact Real.sqrt_mul_self hd

/-- The net force on an actor with a static attractor and one actor as repulsor. -/
theorem Actor.PlanAhead.force_one (s : Sim ℝ) (a b : Actor ℝ) (st : Static ℝ) (j : Nat)
    (fa c : ℝ × ℝ) (hatt : a.attractor = some (.static st))
    (hrep : a.repulsors = [.actor j]) (hb : s.actors[j]? = some b)
    (hfa : a.ProbeAttractingField st.PosX st.PosY = .ok fa)
    (hc : a.ProbeRepulsingField b.PosX b.PosY = .ok c) :
    Actor.PlanAhead.force s a = .ok (fa.1 + c.1, fa.2 + c.2) := by
  have hadd : Actor.PlanAhead.addRepulsion s a fa (.actor j) =
      .ok (fa.1 + c.1, fa.2 + c.2) := by
    simp only [Actor.PlanAhead.addRepulsion, Emitter.GetPos, hb, Actor.GetPos, hc]
  simp only [Actor.PlanAhead.force, hatt, Emitter.GetPos, Static.GetPos, hfa, hrep,
    List.foldlM_cons, List.foldlM_nil, hadd]
  rfl

theorem Actor.PlanAhead_of_force (s : Sim ℝ) (a : Actor ℝ) (f : ℝ × ℝ)
    (h : Actor.PlanAhead.force s a = .ok f) :
    a.PlanAhead s = .ok { a with
      TargetAngle := Actor.PlanAhead.loop (GoMath.Atan2 f.2 f.1 / GoMath.Pi * 180 + 90) } := by
  simp only [Actor.PlanAhead, h]

/-- The first actor of `pairSim` plans against a state in which the second actor is
at `(0, 100)`: its target angle is 0. -/
theorem pairActor0_PlanAhead (s : Sim ℝ) (b : Actor ℝ) (hb : s.actors[1]? = some b)
    (hx : b.PosX = 0) (hy : b.PosY = 100) :
    (pairActor0 : Actor ℝ).PlanAhead s = .ok pairActor0 := by
  have h1 : GoMath.Hypot ((0 : ℝ) - 0) (-10 - 0) = 10 :=
    Hypot_real_eval _ _ 10 (by norm_num) (by norm_num)
  have h2 : GoMath.Hypot ((0 : ℝ) - 0) (0 - 100) = 100 :=
    Hypot_real_eval _ _ 100 (by norm_num) (by norm_num)
  have hatt : (pairActor0 : Actor ℝ).ProbeAttractingField 0 (-10) = .ok (0, -10) := by
    simp only [Actor.ProbeAttractingField, pairActor0, h1]
    norm_num
  have hrep : (pairActor0 : Actor ℝ).ProbeRepulsingField b.PosX b.PosY = .ok (0, -10) := by
    rw [hx, hy]
    simp only [Actor.ProbeRepulsingField, pairActor0, h2]
    norm_num
  have hforce := Actor.PlanAhead.force_one s pairActor0 b { PosX := 0, PosY := -10 } 1
    (0, -10) (0, -10) rfl rfl hb hatt hrep
  have harg : Complex.arg ⟨(0 : ℝ) + 0, -10 + -10⟩ = -(Real.pi / 2) :=
    Complex.arg_eq_neg_pi_div_two_iff.mpr ⟨by norm_num, by norm_num⟩
  have hdir : -(Real.pi / 2) / Real.pi * 180 + 90 = 0 := by
    field_simp
    ring
  rw [Actor.PlanAhead_of_force s _ _ hforce]
  simp only [Atan2_real, Pi_real, harg, hdir]
  rw [Actor.PlanAhead.loop_of_nonneg (le_refl 0)]
  rfl

/-- The second actor of `pairSim` plans against a state in which the first actor has
moved to `(0, -180)`, out of range: its target angle is 90. -/
theorem pairActor1_PlanAhead_far (s : Sim ℝ) (b : Actor ℝ) (hb : s.actors[0]? = some b)
    (hx : b.PosX = 0) (hy : b.PosY = -180) :
    (pairActor1 : Actor ℝ).PlanAhead s = .ok { (pairActor1 : Actor ℝ) with TargetAngle := 90 } := by
  have h1 : GoMath.Hypot ((10 : ℝ) - 0) (100 - 100) = 10 :=
    Hypot_real_eval _ _ 10 (by norm_num) (by norm_num)
  have h2 : GoMath.Hypot ((0 : ℝ) - 0) (100 - -180) = 280 :=
    Hypot_real_eval _ _ 280 (by norm_num) (by norm_num)
  have hatt : (pairActor1 : Actor ℝ).ProbeAttractingField 10 100 = .ok (10, 0) := by
    simp only [Actor.ProbeAttractingField, pairActor1, h1]
    norm_num
  have hrep : (pairActor1 : Actor ℝ).ProbeRepulsingField b.PosX b.PosY = .ok (0, 0) := by
    rw [hx, hy]
    simp only [Actor.ProbeRepulsingField, pairActor1, h2]
    norm_num
  have hforce := Actor.PlanAhead.force_one s pairActor1 b { PosX := 10, PosY := 100 } 0
    (10, 0) (0, 0) rfl rfl hb hatt hrep
  have harg : Complex.arg ⟨(10 : ℝ) + 0, 0 + 0⟩ = 0 := by
    rw [Complex.arg_eq_zero_iff]
    norm_num
  rw [Actor.PlanAhead_of_force s _ _ hforce]
  simp only [Atan2_real, Pi_real, harg]
  rw [Actor.PlanAhead.loop_of_nonneg (by norm_num)]
  norm_num

/-- The second actor of `pairSim` plans against a state in which the first actor is
still at the origin, in range: its target angle is above 90. -/
theorem pairActor1_PlanAhead_near (s : Sim ℝ) (b : Actor ℝ) (hb : s.actors[0]? = some b)
    (hx : b.PosX = 0) (hy : b.PosY = 0) :
    ∃ t : ℝ, 90 < t ∧
      (pairActor1 : Actor ℝ).PlanAhead s = .ok { (pairActor1 : Actor ℝ) with TargetAngle := t } := by
  have h1 : GoMath.Hypot ((10 : ℝ) - 0) (100 - 100) = 10 :=
    Hypot_real_eval _ _ 10 (by norm_num) (by norm_num)
  have h2 : GoMath.Hypot ((0 : ℝ) - 0) (100 - 0) = 100 :=
    Hypot_real_eval _ _ 100 (by norm_num) (by norm_num)
  have hatt : (pairActor1 : Actor ℝ).ProbeAttractingField 10 100 = .ok (10, 0) := by
    simp only [Actor.ProbeAttractingField, pairActor1, h1]
    norm_num
  have hrep : (pairActor1 : Actor ℝ).ProbeRepulsingField b.PosX b.PosY = .ok (0, 10) := by
    rw [hx, hy]
    simp only [Actor.ProbeRepulsingField, pairActor1, h2]
    norm_num
  have hforce := Actor.PlanAhead.force_one s pairActor1 b { PosX := 10, PosY := 100 } 0
    (10, 0) (0, 10) rfl rfl hb hatt hrep
  have hnn : 0 ≤ Complex.arg ⟨(10 : ℝ) + 0, 0 + 10⟩ := by
    rw [Complex.arg_nonneg_iff]
    norm_num
  have hne : Complex.arg ⟨(10 : ℝ) + 0, 0 + 10⟩ ≠ 0 := by
    rw [Ne, Complex.arg_eq_zero_iff]
    norm_num
  have hpos : 0 < Complex.arg ⟨(10 : ℝ) + 0, 0 + 10⟩ := lt_of_le_of_ne hnn (Ne.symm hne)
  have hd : 90 < Complex.arg ⟨(10 : ℝ) + 0, 0 + 10⟩ / Real.pi * 180 + 90 := by
    have : 0 < Complex.arg ⟨(10 : ℝ) + 0, 0 + 10⟩ / Real.pi := div_pos hpos Real.pi_pos
    linarith
  refine ⟨Complex.arg ⟨(10 : ℝ) + 0, 0 + 10⟩ / Real.pi * 180 + 90, hd, ?_⟩
  rw [Actor.PlanAhead_of_force s _ _ hforce]
  simp only [Atan2_real, Pi_real]
  rw [Actor.PlanAhead.loop_of_nonneg (by linarith)]
theorem angleBetweenAngles_zero_zero : angleBetweenAngles (0 : ℝ) 0 = 0 := by
  simp only [angleBetweenAngles]
  rw [angleBetweenAngles.loop_of_le (by norm_num)]
  norm_num

/-- After its turn in a tick with `dt = 1` the first actor of `pairSim` is at
`(0, -180)`. -/
theorem pairActor0_advance :
    (Sim.Tick.advance (1 : ℝ) (90.0 * 2.0 * 1) pairActor0).PosX = 0 ∧
      (Sim.Tick.advance (1 : ℝ) (90.0 * 2.0 * 1) pairActor0).PosY = -180 := by
  have hH : (Sim.Tick.advance (1 : ℝ) (90.0 * 2.0 * 1) pairActor0).Heading = 0 := by
    rw [Sim.Tick.advance_Heading]
    simp only [pairActor0, angleBetweenAngles_zero_zero]
    norm_num
  constructor
  · rw [Sim.Tick.advance_PosX, hH, Sin_real]
    simp [pairActor0]
  · rw [Sim.Tick.advance_PosY, hH, Cos_real]
    simp only [pairActor0]
    norm_num

/-- Wherever an actor at `(0, 100)` is after a tick with `dt = 1`, it is not at the
origin: it has moved by 180. -/
theorem advance_ne_origin (a : Actor ℝ) (hx : a.PosX = 0) (hy : a.PosY = 100) :
    ((Sim.Tick.advance (1 : ℝ) (90.0 * 2.0 * 1) a).PosX,
      (Sim.Tick.advance (1 : ℝ) (90.0 * 2.0 * 1) a).PosY) ≠ ((0 : ℝ), (0 : ℝ)) := by
  intro h
  have h1 := congrArg Prod.fst h
  have h2 := congrArg Prod.snd h
  simp only at h1 h2
  rw [Sim.Tick.advance_PosX, hx, Sin_real, Pi_real] at h1
  rw [Sim.Tick.advance_PosY, hy, Cos_real, Pi_real] at h2
  have hsc := Real.sin_sq_add_cos_sq
    ((Sim.Tick.advance (1 : ℝ) (90.0 * 2.0 * 1) a).Heading / 180 * Real.pi)
  have hs : Real.sin ((Sim.Tick.advance (1 : ℝ) (90.0 * 2.0 * 1) a).Heading / 180 * Real.pi)
      = 0 := by
    norm_num at h1
    exact h1
  have hc : Real.cos ((Sim.Tick.advance (1 : ℝ) (90.0 * 2.0 * 1) a).Heading / 180 * Real.pi)
      = 100 / 180 := by
    norm_num at h2
    linarith
  rw [hs, hc] at hsc
  norm_num at hsc

theorem Actor.PlanAhead_ok (s : Sim ℝ) (a : Actor ℝ) (e : Emitter ℝ) (p : ℝ × ℝ)
    (hatt : a.attractor = some e) (hp : e.GetPos s = .ok p) (hne : p ≠ (a.PosX, a.PosY))
    (hrep : ∀ r ∈ a.repulsors, ∃ q, r.GetPos s = .ok q ∧ q ≠ (a.PosX, a.PosY)) :
    ∃ ap, a.PlanAhead s = .ok ap := by
  obtain ⟨f, hf⟩ := Actor.PlanAhead.force_ok s a e p hatt hp hne hrep
  exact ⟨_, Actor.PlanAhead_of_force s a f hf⟩
/-- In the tick of `pairSim` with `dt = 1` the second actor plans against the first
actor as already moved, out of range: its target angle is 90. -/
theorem pairSim_Tick :
    (pairSim : Sim ℝ).Tick 1 =
      .ok { world := [],
            actors := [Sim.Tick.advance 1 (90.0 * 2.0 * 1) pairActor0,
              Sim.Tick.advance 1 (90.0 * 2.0 * 1)
                { (pairActor1 : Actor ℝ) with TargetAngle := 90 }] } := by
  have hp0 : (pairActor0 : Actor ℝ).PlanAhead pairSim = .ok pairActor0 :=
    pairActor0_PlanAhead pairSim pairActor1 rfl rfl rfl
  have hb0 : Sim.Tick.body (1 : ℝ) (90.0 * 2.0 * 1) pairSim 0 =
      .ok { world := [],
            actors := [Sim.Tick.advance 1 (90.0 * 2.0 * 1) pairActor0, pairActor1] } := by
    have ha : (pairSim : Sim ℝ).actors[0]? = some pairActor0 := rfl
    simp only [Sim.Tick.body, ha, hp0]
    rfl
  have hp1 := pairActor1_PlanAhead_far
    { world := [],
      actors := [Sim.Tick.advance (1 : ℝ) (90.0 * 2.0 * 1) pairActor0, pairActor1] }
    (Sim.Tick.advance (1 : ℝ) (90.0 * 2.0 * 1) pairActor0) rfl
    pairActor0_advance.1 pairActor0_advance.2
  have hb1 : Sim.Tick.body (1 : ℝ) (90.0 * 2.0 * 1)
      { world := [],
        actors := [Sim.Tick.advance (1 : ℝ) (90.0 * 2.0 * 1) pairActor0, pairActor1] } 1 =
      .ok { world := [],
            actors := [Sim.Tick.advance 1 (90.0 * 2.0 * 1) pairActor0,
              Sim.Tick.advance 1 (90.0 * 2.0 * 1)
                { (pairActor1 : Actor ℝ) with TargetAngle := 90 }] } := by
    simp only [Sim.Tick.body, List.getElem?_cons_succ, List.getElem?_cons_zero, hp1]
    rfl
  have hr : List.range 2 = [0, 1] := rfl
  have hlen : (pairSim : Sim ℝ).actors.length = 2 := rfl
  simp only [Sim.Tick, hlen, hr, List.foldlM_cons, List.foldlM_nil, hb0, bind, Except.bind,
    hb1]
  rfl

/-- In the tick of `pairSim` with double buffering the second actor plans against the
first actor where it was, in range: its target angle is above 90. -/
theorem pairSim_TickSnapshot :
    ∃ t : ℝ, 90 < t ∧ (pairSim : Sim ℝ).TickSnapshot 1 =
      .ok { world := [],
            actors := [Sim.Tick.advance 1 (90.0 * 2.0 * 1) pairActor0,
              Sim.Tick.advance 1 (90.0 * 2.0 * 1)
                { (pairActor1 : Actor ℝ) with TargetAngle := t }] } := by
  have hp0 : (pairActor0 : Actor ℝ).PlanAhead pairSim = .ok pairActor0 :=
    pairActor0_PlanAhead pairSim pairActor1 rfl rfl rfl
  obtain ⟨t, ht, hp1⟩ := pairActor1_PlanAhead_near pairSim pairActor0 rfl rfl rfl
  refine ⟨t, ht, ?_⟩
  have hb0 : Sim.TickSnapshot.body (1 : ℝ) (90.0 * 2.0 * 1) pairSim pairSim 0 =
      .ok { world := [],
            actors := [Sim.Tick.advance 1 (90.0 * 2.0 * 1) pairActor0, pairActor1] } := by
    have ha : (pairSim : Sim ℝ).actors[0]? = some pairActor0 := rfl
    simp only [Sim.TickSnapshot.body, ha, hp0]
    rfl
  have hb1 : Sim.TickSnapshot.body (1 : ℝ) (90.0 * 2.0 * 1) pairSim
      { world := [],
        actors := [Sim.Tick.advance (1 : ℝ) (90.0 * 2.0 * 1) pairActor0, pairActor1] } 1 =
      .ok { world := [],
            actors := [Sim.Tick.advance 1 (90.0 * 2.0 * 1) pairActor0,
              Sim.Tick.advance 1 (90.0 * 2.0 * 1)
                { (pairActor1 : Actor ℝ) with TargetAngle := t }] } := by
    simp only [Sim.TickSnapshot.body, List.getElem?_cons_succ, List.getElem?_cons_zero, hp1]
    rfl
  have hr : List.range 2 = [0, 1] := rfl
  have hlen : (pairSim : Sim ℝ).actors.length = 2 := rfl
  simp only [Sim.TickSnapshot, hlen, hr, List.foldlM_cons, List.foldlM_nil, hb0, bind,
    Except.bind, hb1]
  rfl

/-- In the tick of `pairSim` in reverse order the second actor plans first, against
the first actor where it was, in range: its target angle is above 90. -/
theorem pairSim_TickReverse :
    ∃ (t : ℝ) (a0 : Actor ℝ), 90 < t ∧ (pairSim : Sim ℝ).TickReverse 1 =
      .ok { world := [],
            actors := [a0,
              Sim.Tick.advance 1 (90.0 * 2.0 * 1)
                { (pairActor1 : Actor ℝ) with TargetAngle := t }] } := by
  obtain ⟨t, ht, hp1⟩ := pairActor1_PlanAhead_near pairSim pairActor0 rfl rfl rfl
  have hb1 : Sim.Tick.body (1 : ℝ) (90.0 * 2.0 * 1) pairSim 1 =
      .ok { world := [],
            actors := [pairActor0, Sim.Tick.advance 1 (90.0 * 2.0 * 1)
                { (pairActor1 : Actor ℝ) with TargetAngle := t }] } := by
    have ha : (pairSim : Sim ℝ).actors[1]? = some pairActor1 := rfl
    simp only [Sim.Tick.body, ha, hp1]
    rfl
  have hne := advance_ne_origin { (pairActor1 : Actor ℝ) with TargetAngle := t } rfl rfl
  obtain ⟨ap, hp0⟩ := Actor.PlanAhead_ok
    { world := [],
      actors := [pairActor0, Sim.Tick.advance (1 : ℝ) (90.0 * 2.0 * 1)
        { (pairActor1 : Actor ℝ) with TargetAngle := t }] }
    (pairActor0 : Actor ℝ) (.static { PosX := 0, PosY := -10 }) (0, -10) rfl rfl
    (by simp [pairActor0])
    (by
      intro r hr
      simp only [pairActor0, List.mem_singleton] at hr
      subst hr
      exact ⟨_, rfl, hne⟩)
  refine ⟨t, Sim.Tick.advance 1 (90.0 * 2.0 * 1) ap, ht, ?_⟩
  have hb0 : Sim.Tick.body (1 : ℝ) (90.0 * 2.0 * 1)
      { world := [],
        actors := [pairActor0, Sim.Tick.advance (1 : ℝ) (90.0 * 2.0 * 1)
          { (pairActor1 : Actor ℝ) with TargetAngle := t }] } 0 =
      .ok { world := [],
            actors := [Sim.Tick.advance 1 (90.0 * 2.0 * 1) ap,
              Sim.Tick.advance 1 (90.0 * 2.0 * 1)
                { (pairActor1 : Actor ℝ) with TargetAngle := t }] } := by
    simp only [Sim.Tick.body, List.getElem?_cons_zero, hp0]
    rfl
  have hr : (List.range 2).reverse = [1, 0] := rfl
  have hlen : (pairSim : Sim ℝ).actors.length = 2 := rfl
  simp only [Sim.TickReverse, hlen, hr, List.foldlM_cons, List.foldlM_nil, hb1, bind,
    Except.bind, hb0]
  rfl
/-- C17: `Tick` updates the actors in place in collection order: when the turn of the
actor at index `i` comes, the actors before it are already as they are after the tick
and the others are as they were before it.  So the order matters: in `pairSim`, two
actors that repel each other, with `dt = 1`, `Tick` returns a state that differs from
the one returned when every actor plans against the snapshot taken before the tick,
and from the one returned when the actors are taken in reverse order; the target
angle of the second actor is 90 after `Tick` and above 90 after the other two. -/
theorem Tick_order_dependent :
    (∀ (s s' : Sim ℝ) (dt : ℝ) (i : Nat) (a : Actor ℝ),
      s.Tick dt = .ok s' → s.actors[i]? = some a →
      ∃ (sm : Sim ℝ) (ap : Actor ℝ), a.PlanAhead sm = .ok ap ∧
        s'.actors[i]? = some (Sim.Tick.advance dt (90.0 * 2.0 * dt) ap) ∧
        (∀ j, i ≤ j → sm.actors[j]? = s.actors[j]?) ∧
        (∀ j, j < i → sm.actors[j]? = s'.actors[j]?)) ∧
    (pairSim : Sim ℝ).actors = [pairActor0, pairActor1] ∧
    (pairActor0 : Actor ℝ).repulsors = [.actor 1] ∧
    (pairActor1 : Actor ℝ).repulsors = [.actor 0] ∧
    (0 : ℝ) < 1 ∧
    ∃ (s1 s2 s3 : Sim ℝ) (a1 a2 a3 : Actor ℝ),
      (pairSim : Sim ℝ).Tick 1 = .ok s1 ∧ (pairSim : Sim ℝ).TickSnapshot 1 = .ok s2 ∧
      (pairSim : Sim ℝ).TickReverse 1 = .ok s3 ∧ s1 ≠ s2 ∧ s1 ≠ s3 ∧
      s1.actors[1]? = some a1 ∧ a1.TargetAngle = 90 ∧
      s2.actors[1]? = some a2 ∧ 90 < a2.TargetAngle ∧
      s3.actors[1]? = some a3 ∧ 90 < a3.TargetAngle := by
  refine ⟨?_, rfl, rfl, rfl, by norm_num, ?_⟩
  · intro s s' dt i a h hi
    obtain ⟨sm, ap, -, -, -, h4, h5, h6, h7⟩ := Sim.Tick_actor_inplace h hi
    exact ⟨sm, ap, h4, h5, h6, h7⟩
  · obtain ⟨t2, ht2, h2⟩ := pairSim_TickSnapshot
    obtain ⟨t3, a0, ht3, h3⟩ := pairSim_TickReverse
    have hdiff : ∀ (t : ℝ) (b : Actor ℝ), 90 < t →
        ({ world := [],
           actors := [Sim.Tick.advance 1 (90.0 * 2.0 * 1) pairActor0,
             Sim.Tick.advance 1 (90.0 * 2.0 * 1)
               { (pairActor1 : Actor ℝ) with TargetAngle := 90 }] } : Sim ℝ) ≠
        { world := [],
          actors := [b, Sim.Tick.advance 1 (90.0 * 2.0 * 1)
            { (pairActor1 : Actor ℝ) with TargetAngle := t }] } := by
      intro t b ht heq
      have h := congrArg (fun s : Sim ℝ => (s.actors[1]?).map (fun a => a.TargetAngle)) heq
      simp only [List.getElem?_cons_succ, List.getElem?_cons_zero, Option.map_some',
        Sim.Tick.advance_TargetAngle, Option.some.injEq] at h
      linarith
    exact ⟨_, _, _, _, _, _, pairSim_Tick, h2, h3, hdiff t2 _ ht2, hdiff t3 _ ht3,
      rfl, rfl, rfl, ht2, rfl, ht3⟩

/-! ## A tick that returns, right after SetWorld -/

section ForceCongr

variable [GoMath F]

end ForceCongr

end Swarmsim
